import Mathlib

/-!
Shallow embedding of `scripts/aggregate.py` (BlueBikes data aggregator).

Conventions of the embedding:
* CSV cell values whose only use is "present / parses as a float / numeric
  value" are modelled by the inductive `Cell`; real numbers are `ℚ`.
* Python `defaultdict` maps are modelled as a total function (the default
  value is the freshly-constructed entry) together with the list of keys
  that have actually been created, in creation order.
* Python floats are modelled as exact rationals; the fixed-point formatting
  of averaged coordinates (presentation only) is not modelled.
-/

namespace BlueBikes

/-- Parse status of one CSV cell: missing/empty, present but not a float,
or a float with value `q`. -/
inductive Cell where
  | absent : Cell
  | bad : Cell
  | num : ℚ → Cell
  deriving DecidableEq

/-- One input trip record, with the fields `aggregate.py` reads. -/
structure Row where
  start_station_id : String
  end_station_id : String
  start_station_name : String
  end_station_name : String
  start_lat : Cell
  start_lng : Cell
  end_lat : Cell
  end_lng : Cell
  duration_minutes : Cell
  rideable_type : String
  deriving DecidableEq

/-- `normalize_bike_type` from the source. -/
def normalize_bike_type (bike_type : String) : String :=
  if bike_type = "docked_bike" ∨ bike_type = "classic_bike" then "classic_bike" else bike_type

/-- `station_id.startswith('N')` (true iff the first character is `'N'`). -/
def startsWithN (s : String) : Bool :=
  match s.data with
  | [] => false
  | c :: _ => c == 'N'

/-- `sort_id_by_n_and_alpha` from the source: Python sort key
`(not station_id.startswith('N'), station_id)`. -/
def sort_id_by_n_and_alpha (station_id : String) : Bool × String :=
  (!(startsWithN station_id), station_id)

/-- The literal `municipalities` dict from `get_municipality`. -/
def muniTable : List (Char × String) :=
  [('V', "Medford"), ('W', "Watertown"), ('T', "Salem"), ('K', "Brookline"),
   ('L', "Lexington"), ('M', "Cambridge"), ('N', "Newton"), ('R', "Revere"),
   ('S', "Somerville")]

/-- `get_municipality` from the source: empty id gives `""`; otherwise the
uppercased leading character selects Boston for `'A'..'H'` or a dict lookup. -/
def get_municipality (station_id : String) : String :=
  match station_id.data with
  | [] => ""
  | c :: _ =>
      let p := c.toUpper
      if 'A' ≤ p ∧ p ≤ 'H' then "Boston"
      else ((muniTable.lookup p).getD "")

/-- `format_station_name` from the source. -/
def format_station_name (station_id station_name : String) : String :=
  if station_id = "" ∨ station_name = "" then station_name
  else
    let municipality := get_municipality station_id
    if municipality = "" then station_name
    else municipality ++ ": " ++ station_name

/-- Running coordinate sums for one station (the `station_coords` entry). -/
structure CoordSums where
  lat_sum : ℚ
  lng_sum : ℚ
  count : ℕ
  deriving DecidableEq

def CoordSums.init : CoordSums := ⟨0, 0, 0⟩

/-- One endpoint's contribution in `compute_station_coordinates`.
Mirrors the Python `try` block statement by statement: the `lat_sum`
increment happens before the longitude is parsed, so a `ValueError` on the
longitude leaves the latitude increment in place. -/
def addEndpoint (m : String → CoordSums) (station_id : String) (latc lngc : Cell) :
    String → CoordSums :=
  if station_id = "" ∨ latc = Cell.absent ∨ lngc = Cell.absent then m
  else
    match latc with
    | Cell.absent => m
    | Cell.bad => m
    | Cell.num a =>
        let e0 := m station_id
        let m1 := Function.update m station_id { e0 with lat_sum := e0.lat_sum + a }
        match lngc with
        | Cell.absent => m1
        | Cell.bad => m1
        | Cell.num b =>
            let e1 := m1 station_id
            Function.update m1 station_id
              { e1 with lng_sum := e1.lng_sum + b, count := e1.count + 1 }

/-- The first pass of `compute_station_coordinates`: accumulate both
endpoints of every record. -/
def compute_station_coordinates (rows : List Row) : String → CoordSums :=
  rows.foldl
    (fun m row =>
      addEndpoint (addEndpoint m row.start_station_id row.start_lat row.start_lng)
        row.end_station_id row.end_lat row.end_lng)
    (fun _ => CoordSums.init)

/-- The `avg_coords` map: defined exactly for stations with at least one
valid observation, giving the mean of each axis. -/
def avg_coords (rows : List Row) (station_id : String) : Option (ℚ × ℚ) :=
  let sums := compute_station_coordinates rows station_id
  if sums.count > 0 then some (sums.lat_sum / sums.count, sums.lng_sum / sums.count)
  else none

/-- `float(row.get('duration_minutes', 0))`: a missing key falls back to the
integer `0`; a present cell must parse. -/
def duration_value : Cell → Option ℚ
  | Cell.absent => some 0
  | Cell.bad => none
  | Cell.num q => some q

/-- The validity test both second-pass loops apply before updating any
accumulator. -/
def isValidTrip (coords : String → Option (ℚ × ℚ)) (row : Row) : Bool :=
  !(row.start_station_id == "") && !(row.end_station_id == "") &&
  !(row.start_station_id == row.end_station_id) &&
  (coords row.start_station_id).isSome && (coords row.end_station_id).isSome &&
  (duration_value row.duration_minutes).isSome

/-- `compute_weighted_average` from the source. -/
def compute_weighted_average (total_sum : ℚ) (count : ℕ) : ℚ :=
  if count > 0 then total_sum / count else 0

/-- The `StationStats` class from the source. -/
structure StationStats where
  trip_count_fwd : ℕ
  trip_count_rev : ℕ
  electric_count_fwd : ℕ
  electric_count_rev : ℕ
  total_duration_fwd : ℚ
  total_duration_rev : ℚ
  electric_duration_fwd : ℚ
  electric_duration_rev : ℚ
  classic_duration_fwd : ℚ
  classic_duration_rev : ℚ
  station_name : String
  latitude : Option ℚ
  longitude : Option ℚ
  deriving DecidableEq

def StationStats.init : StationStats :=
  ⟨0, 0, 0, 0, 0, 0, 0, 0, 0, 0, "", none, none⟩

/-- The guarded name/coordinate capture in `analyze_stations`
(`if not stats.station_name: ...`). -/
def stationCapture (st : StationStats) (name : String) (c : ℚ × ℚ) : StationStats :=
  if st.station_name = "" then
    { st with station_name := name, latitude := some c.1, longitude := some c.2 }
  else st

/-- The forward (departure) tally update in `analyze_stations`. -/
def stationUpdateFwd (st : StationStats) (duration : ℚ) (electric : Bool) : StationStats :=
  let st1 := { st with trip_count_fwd := st.trip_count_fwd + 1,
                       total_duration_fwd := st.total_duration_fwd + duration }
  if electric then
    { st1 with electric_count_fwd := st1.electric_count_fwd + 1,
               electric_duration_fwd := st1.electric_duration_fwd + duration }
  else { st1 with classic_duration_fwd := st1.classic_duration_fwd + duration }

/-- The reverse (arrival) tally update in `analyze_stations`. -/
def stationUpdateRev (st : StationStats) (duration : ℚ) (electric : Bool) : StationStats :=
  let st1 := { st with trip_count_rev := st.trip_count_rev + 1,
                       total_duration_rev := st.total_duration_rev + duration }
  if electric then
    { st1 with electric_count_rev := st1.electric_count_rev + 1,
               electric_duration_rev := st1.electric_duration_rev + duration }
  else { st1 with classic_duration_rev := st1.classic_duration_rev + duration }

/-- A `defaultdict` keyed by `κ`: the total data function plus the list of
keys created so far, in creation order. -/
structure DMap (κ β : Type) where
  data : κ → β
  keys : List κ

/-- Key creation on `defaultdict` access. -/
def touchKey {κ : Type} [DecidableEq κ] (ks : List κ) (k : κ) : List κ :=
  if k ∈ ks then ks else ks ++ [k]

/-- The `stations` accumulator map. -/
abbrev StationsState := DMap String StationStats

def stationsInit : StationsState := ⟨fun _ => StationStats.init, []⟩

/-- One iteration of the row loop of `analyze_stations`. -/
def stationStep (coords : String → Option (ℚ × ℚ)) (s : StationsState) (row : Row) :
    StationsState :=
  let start_id := row.start_station_id
  let end_id := row.end_station_id
  if start_id = "" ∨ end_id = "" ∨ start_id = end_id then s
  else
    match coords start_id, coords end_id with
    | some sc, some ec =>
        match duration_value row.duration_minutes with
        | none => s
        | some duration =>
            let electric := normalize_bike_type row.rideable_type == "electric_bike"
            let st := stationUpdateFwd
              (stationCapture (s.data start_id)
                (format_station_name start_id row.start_station_name) sc) duration electric
            let data1 := Function.update s.data start_id st
            let keys1 := touchKey s.keys start_id
            let en := stationUpdateRev
              (stationCapture (data1 end_id)
                (format_station_name end_id row.end_station_name) ec) duration electric
            ⟨Function.update data1 end_id en, touchKey keys1 end_id⟩
    | _, _ => s

/-- The full accumulation loop of `analyze_stations`. -/
def stationsFold (coords : String → Option (ℚ × ℚ)) (s : StationsState)
    (rows : List Row) : StationsState :=
  rows.foldl (stationStep coords) s

/-- `analyze_stations` up to (and including) accumulation, applied to the
coordinate map the script computes from the same batch. -/
def analyze_stations_acc (rows : List Row) : StationsState :=
  stationsFold (avg_coords rows) stationsInit rows

/-- The `TripStats` class from the source. -/
structure TripStats where
  trip_count : ℕ
  electric_count : ℕ
  total_duration : ℚ
  electric_duration : ℚ
  classic_duration : ℚ
  deriving DecidableEq

def TripStats.init : TripStats := ⟨0, 0, 0, 0, 0⟩

/-- The shared tally-update shape used for both directions in
`analyze_station_pairs`. -/
def TripStats.addTrip (t : TripStats) (duration : ℚ) (electric : Bool) : TripStats :=
  let t1 := { t with trip_count := t.trip_count + 1,
                     total_duration := t.total_duration + duration }
  if electric then
    { t1 with electric_count := t1.electric_count + 1,
              electric_duration := t1.electric_duration + duration }
  else { t1 with classic_duration := t1.classic_duration + duration }

/-- One entry of the `pairs` defaultdict. -/
structure PairEntry where
  start_station_name : String
  end_station_name : String
  start_lat : Option ℚ
  start_lng : Option ℚ
  end_lat : Option ℚ
  end_lng : Option ℚ
  stats_fwd : TripStats
  stats_rev : TripStats
  deriving DecidableEq

def PairEntry.init : PairEntry := ⟨"", "", none, none, none, none, TripStats.init, TripStats.init⟩

/-- The guarded name/coordinate capture in `analyze_station_pairs`
(`if not pairs[key]['start_station_name']: pairs[key].update(...)`). -/
def pairCapture (e : PairEntry) (sn en : String) (sc ec : ℚ × ℚ) : PairEntry :=
  if e.start_station_name = "" then
    { e with start_station_name := sn, end_station_name := en,
             start_lat := some sc.1, start_lng := some sc.2,
             end_lat := some ec.1, end_lng := some ec.2 }
  else e

/-- The `pairs` accumulator map. -/
abbrev PairsState := DMap (String × String) PairEntry

def pairsInit : PairsState := ⟨fun _ => PairEntry.init, []⟩

/-- One iteration of the row loop of `analyze_station_pairs`: capture for
the forward key, bump its forward block, bump the mirror key's reverse
block, then capture for the mirror key. -/
def pairStep (coords : String → Option (ℚ × ℚ)) (s : PairsState) (row : Row) :
    PairsState :=
  let start_id := row.start_station_id
  let end_id := row.end_station_id
  if start_id = "" ∨ end_id = "" ∨ start_id = end_id then s
  else
    match coords start_id, coords end_id with
    | some sc, some ec =>
        match duration_value row.duration_minutes with
        | none => s
        | some duration =>
            let electric := normalize_bike_type row.rideable_type == "electric_bike"
            let pk := (start_id, end_id)
            let rk := (end_id, start_id)
            let e1 := pairCapture (s.data pk)
              (format_station_name start_id row.start_station_name)
              (format_station_name end_id row.end_station_name) sc ec
            let e2 := { e1 with stats_fwd := e1.stats_fwd.addTrip duration electric }
            let data1 := Function.update s.data pk e2
            let keys1 := touchKey s.keys pk
            let r1 := data1 rk
            let r2 := { r1 with stats_rev := r1.stats_rev.addTrip duration electric }
            let r3 := pairCapture r2
              (format_station_name end_id row.end_station_name)
              (format_station_name start_id row.start_station_name) ec sc
            ⟨Function.update data1 rk r3, touchKey keys1 rk⟩
    | _, _ => s

/-- The full accumulation loop of `analyze_station_pairs`. -/
def pairsFold (coords : String → Option (ℚ × ℚ)) (s : PairsState)
    (rows : List Row) : PairsState :=
  rows.foldl (pairStep coords) s

/-- `analyze_station_pairs` up to (and including) accumulation. -/
def analyze_station_pairs_acc (rows : List Row) : PairsState :=
  pairsFold (avg_coords rows) pairsInit rows

/-- The derived (pre-rounding) metric values one report row carries. -/
structure Derived where
  fwd_e_pct : ℚ
  rev_e_pct : ℚ
  bidir_e_pct : ℚ
  duration_fwd : ℚ
  duration_rev : ℚ
  duration_bidir : ℚ
  e_duration_fwd : ℚ
  e_duration_rev : ℚ
  e_duration_bidir : ℚ
  c_duration_fwd : ℚ
  c_duration_rev : ℚ
  c_duration_bidir : ℚ
  deriving DecidableEq

/-- The metric block of `analyze_stations` (lines computing `fwd_e_pct`
through `c_duration_bidir`). -/
def deriveStation (stats : StationStats) : Derived :=
  let trip_count_bidir := stats.trip_count_fwd + stats.trip_count_rev
  let total_electric := stats.electric_count_fwd + stats.electric_count_rev
  { fwd_e_pct := if stats.trip_count_fwd > 0 then
      (stats.electric_count_fwd : ℚ) / stats.trip_count_fwd * 100 else 0
    rev_e_pct := if stats.trip_count_rev > 0 then
      (stats.electric_count_rev : ℚ) / stats.trip_count_rev * 100 else 0
    bidir_e_pct := (total_electric : ℚ) / trip_count_bidir * 100
    duration_fwd := compute_weighted_average stats.total_duration_fwd stats.trip_count_fwd
    duration_rev := compute_weighted_average stats.total_duration_rev stats.trip_count_rev
    duration_bidir := compute_weighted_average
      (stats.total_duration_fwd + stats.total_duration_rev) trip_count_bidir
    e_duration_fwd := compute_weighted_average stats.electric_duration_fwd stats.electric_count_fwd
    e_duration_rev := compute_weighted_average stats.electric_duration_rev stats.electric_count_rev
    e_duration_bidir := compute_weighted_average
      (stats.electric_duration_fwd + stats.electric_duration_rev) total_electric
    c_duration_fwd := compute_weighted_average stats.classic_duration_fwd
      (stats.trip_count_fwd - stats.electric_count_fwd)
    c_duration_rev := compute_weighted_average stats.classic_duration_rev
      (stats.trip_count_rev - stats.electric_count_rev)
    c_duration_bidir := compute_weighted_average
      (stats.classic_duration_fwd + stats.classic_duration_rev)
      (trip_count_bidir - total_electric) }

/-- The metric block of `analyze_station_pairs` (lines computing
`fwd_e_pct` through `c_duration_bidir` from the two `TripStats` blocks). -/
def derivePair (fwd rev : TripStats) : Derived :=
  let total_trips := fwd.trip_count + rev.trip_count
  let total_electric := fwd.electric_count + rev.electric_count
  { fwd_e_pct := if fwd.trip_count > 0 then
      (fwd.electric_count : ℚ) / fwd.trip_count * 100 else 0
    rev_e_pct := if rev.trip_count > 0 then
      (rev.electric_count : ℚ) / rev.trip_count * 100 else 0
    bidir_e_pct := (total_electric : ℚ) / total_trips * 100
    duration_fwd := compute_weighted_average fwd.total_duration fwd.trip_count
    duration_rev := compute_weighted_average rev.total_duration rev.trip_count
    duration_bidir := compute_weighted_average
      (fwd.total_duration + rev.total_duration) total_trips
    e_duration_fwd := compute_weighted_average fwd.electric_duration fwd.electric_count
    e_duration_rev := compute_weighted_average rev.electric_duration rev.electric_count
    e_duration_bidir := compute_weighted_average
      (fwd.electric_duration + rev.electric_duration) total_electric
    c_duration_fwd := compute_weighted_average fwd.classic_duration
      (fwd.trip_count - fwd.electric_count)
    c_duration_rev := compute_weighted_average rev.classic_duration
      (rev.trip_count - rev.electric_count)
    c_duration_bidir := compute_weighted_average
      (fwd.classic_duration + rev.classic_duration) (total_trips - total_electric) }

/-- Lexicographic code-point comparison of character lists: the order
Python uses to compare strings. -/
def charListLt : List Char → List Char → Bool
  | [], [] => false
  | [], _ :: _ => true
  | _ :: _, [] => false
  | a :: as, b :: bs => if a < b then true else if b < a then false else charListLt as bs

/-- Python's `<` on strings. -/
def strLt (a b : String) : Bool := charListLt a.data b.data

/-- Ascending string order used by `sorted(stations.items())`. -/
def strLe (a b : String) : Bool := strLt a b || a == b

/-- The station-report key list: the map's keys sorted ascending, with
zero-trip entries skipped (`if trip_count_bidir == 0: continue`). -/
def stationReportKeys (s : StationsState) : List String :=
  (s.keys.mergeSort strLe).filter
    (fun k => !((s.data k).trip_count_fwd + (s.data k).trip_count_rev == 0))

/-- Strict order of Python tuples `(bool, str)` (`False < True`, then
code-point string order). -/
def bsLt (a b : Bool × String) : Bool :=
  (!a.1 && b.1) || (decide (a.1 = b.1) && strLt a.2 b.2)

/-- The comparison `sorted(pairs.items(), key=...)` sorts by: lexicographic
on `(sort_id_by_n_and_alpha origin, sort_id_by_n_and_alpha destination)`. -/
def pairKeyLe (p q : String × String) : Bool :=
  bsLt (sort_id_by_n_and_alpha p.1) (sort_id_by_n_and_alpha q.1) ||
  (decide (sort_id_by_n_and_alpha p.1 = sort_id_by_n_and_alpha q.1) &&
    (bsLt (sort_id_by_n_and_alpha p.2) (sort_id_by_n_and_alpha q.2) ||
     decide (sort_id_by_n_and_alpha p.2 = sort_id_by_n_and_alpha q.2)))

/-- The pair-report key list: the map's keys in the script's sort order,
with zero-trip entries skipped (`if total_trips == 0: continue`). -/
def pairReportKeys (s : PairsState) : List (String × String) :=
  (s.keys.mergeSort pairKeyLe).filter
    (fun k => !((s.data k).stats_fwd.trip_count + (s.data k).stats_rev.trip_count == 0))

theorem charListLt_trans : ∀ (xs ys zs : List Char), charListLt xs ys = true →
    charListLt ys zs = true → charListLt xs zs = true
  | [], [], _, h1, _ => by simp [charListLt] at h1
  | [], _ :: _, [], _, h2 => by simp [charListLt] at h2
  | [], _ :: _, _ :: _, _, _ => by simp [charListLt]
  | _ :: _, [], _, h1, _ => by simp [charListLt] at h1
  | _ :: _, _ :: _, [], _, h2 => by simp [charListLt] at h2
  | a :: as, b :: bs, c :: cs, h1, h2 => by
      simp only [charListLt] at h1 h2 ⊢
      rcases lt_trichotomy a b with hab | hab | hab
      · rcases lt_trichotomy b c with hbc | hbc | hbc
        · rw [if_pos (lt_trans hab hbc)]
        · subst hbc
          rw [if_pos hab]
        · rw [if_neg (asymm hbc), if_pos hbc] at h2
          cases h2
      · subst hab
        rcases lt_trichotomy a c with hac | hac | hac
        · rw [if_pos hac]
        · subst hac
          rw [if_neg (lt_irrefl a), if_neg (lt_irrefl a)] at h1 h2 ⊢
          exact charListLt_trans as bs cs h1 h2
        · rw [if_neg (asymm hac), if_pos hac] at h2
          cases h2
      · rw [if_neg (asymm hab), if_pos hab] at h1
        cases h1

theorem charListLt_trichot : ∀ (xs ys : List Char),
    charListLt xs ys = true ∨ xs = ys ∨ charListLt ys xs = true
  | [], [] => Or.inr (Or.inl rfl)
  | [], _ :: _ => Or.inl (by simp [charListLt])
  | _ :: _, [] => Or.inr (Or.inr (by simp [charListLt]))
  | a :: as, b :: bs => by
      rcases lt_trichotomy a b with h | h | h
      · left
        simp [charListLt, h]
      · subst h
        rcases charListLt_trichot as bs with h2 | h2 | h2
        · left
          simp [charListLt, lt_irrefl, h2]
        · right
          left
          rw [h2]
        · right
          right
          simp [charListLt, lt_irrefl, h2]
      · right
        right
        simp [charListLt, h]

theorem strLt_trans {a b c : String} (h1 : strLt a b = true) (h2 : strLt b c = true) :
    strLt a c = true :=
  charListLt_trans a.data b.data c.data h1 h2

theorem strLt_trichot (a b : String) : strLt a b = true ∨ a = b ∨ strLt b a = true := by
  rcases charListLt_trichot a.data b.data with h | h | h
  · exact Or.inl h
  · exact Or.inr (Or.inl (String.ext h))
  · exact Or.inr (Or.inr h)

theorem bsLt_iff : ∀ x y : Bool × String, bsLt x y = true ↔
    ((x.1 = false ∧ y.1 = true) ∨ (x.1 = y.1 ∧ strLt x.2 y.2 = true))
  | ⟨x1, x2⟩, ⟨y1, y2⟩ => by
      cases x1 <;> cases y1 <;> simp [bsLt]

theorem bsLt_trans {x y z : Bool × String} (h1 : bsLt x y = true) (h2 : bsLt y z = true) :
    bsLt x z = true := by
  rw [bsLt_iff] at h1 h2 ⊢
  rcases h1 with ⟨hx, hy⟩ | ⟨hxy, hlt⟩ <;> rcases h2 with ⟨hy2, hz⟩ | ⟨hyz, hlt2⟩
  · rw [hy] at hy2
    cases hy2
  · left
    exact ⟨hx, hyz ▸ hy⟩
  · left
    exact ⟨hxy.trans hy2, hz⟩
  · right
    exact ⟨hxy.trans hyz, strLt_trans hlt hlt2⟩

theorem bsLt_trichot (x y : Bool × String) :
    bsLt x y = true ∨ x = y ∨ bsLt y x = true := by
  obtain ⟨x1, x2⟩ := x
  obtain ⟨y1, y2⟩ := y
  rcases strLt_trichot x2 y2 with h | h | h
  · cases x1 <;> cases y1 <;> simp [bsLt, h]
  · subst h
    cases x1 <;> cases y1 <;> simp [bsLt]
  · cases x1 <;> cases y1 <;> simp [bsLt, h]

theorem keyEq_iff (a b : String) :
    sort_id_by_n_and_alpha a = sort_id_by_n_and_alpha b ↔ a = b := by
  unfold sort_id_by_n_and_alpha
  constructor
  · intro h
    exact congrArg Prod.snd h
  · intro h
    rw [h]

theorem pairKeyLe_iff (p q : String × String) : pairKeyLe p q = true ↔
    (bsLt (sort_id_by_n_and_alpha p.1) (sort_id_by_n_and_alpha q.1) = true ∨
      (p.1 = q.1 ∧ (bsLt (sort_id_by_n_and_alpha p.2) (sort_id_by_n_and_alpha q.2) = true ∨
        p.2 = q.2))) := by
  simp [pairKeyLe, keyEq_iff]

theorem pairKeyLe_trans (a b c : String × String)
    (h1 : pairKeyLe a b = true) (h2 : pairKeyLe b c = true) : pairKeyLe a c = true := by
  rw [pairKeyLe_iff] at h1 h2 ⊢
  rcases h1 with h1 | ⟨he1, h1s⟩
  · rcases h2 with h2 | ⟨he2, _⟩
    · exact Or.inl (bsLt_trans h1 h2)
    · exact Or.inl (he2 ▸ h1)
  · rcases h2 with h2 | ⟨he2, h2s⟩
    · exact Or.inl (he1 ▸ h2)
    · refine Or.inr ⟨he1.trans he2, ?_⟩
      rcases h1s with h1s | h1s
      · rcases h2s with h2s | h2s
        · exact Or.inl (bsLt_trans h1s h2s)
        · exact Or.inl (h2s ▸ h1s)
      · rcases h2s with h2s | h2s
        · exact Or.inl (h1s ▸ h2s)
        · exact Or.inr (h1s.trans h2s)

theorem pairKeyLe_total (a b : String × String) :
    pairKeyLe a b || pairKeyLe b a := by
  rw [Bool.or_eq_true, pairKeyLe_iff, pairKeyLe_iff]
  rcases bsLt_trichot (sort_id_by_n_and_alpha a.1) (sort_id_by_n_and_alpha b.1) with h | h | h
  · exact Or.inl (Or.inl h)
  · have he : a.1 = b.1 := (keyEq_iff _ _).mp h
    rcases bsLt_trichot (sort_id_by_n_and_alpha a.2) (sort_id_by_n_and_alpha b.2) with
      h2 | h2 | h2
    · exact Or.inl (Or.inr ⟨he, Or.inl h2⟩)
    · exact Or.inl (Or.inr ⟨he, Or.inr ((keyEq_iff _ _).mp h2)⟩)
    · exact Or.inr (Or.inr ⟨he.symm, Or.inl h2⟩)
  · exact Or.inr (Or.inl h)

/-- The pair-report key list is sorted by the comparator the script passes
to `sorted`. -/
theorem pairReportKeys_pairwise_code (s : PairsState) :
    List.Pairwise (fun p q => pairKeyLe p q = true) (pairReportKeys s) := by
  unfold pairReportKeys
  exact List.Pairwise.sublist (List.filter_sublist _)
    (List.sorted_mergeSort pairKeyLe_trans pairKeyLe_total s.keys)

/-- The "Newton marker" test the claim describes, i.e. the municipality
mapping's case-insensitive reading of the leading character: ids whose
uppercased first character is `'N'`. -/
def newtonMarkedCI (id : String) : Bool :=
  match id.data with
  | [] => false
  | c :: _ => c.toUpper == 'N'

/-- The id order the claim describes: Newton-marked (case-insensitive)
first, plain lexical order within each partition. -/
def idLtCI (a b : String) : Bool :=
  (newtonMarkedCI a && !newtonMarkedCI b) ||
  ((newtonMarkedCI a == newtonMarkedCI b) && strLt a b)

/-- The claimed two-level pair order (case-insensitive marker). -/
def pairLeCI (p q : String × String) : Bool :=
  idLtCI p.1 q.1 || (decide (p.1 = q.1) && (idLtCI p.2 q.2 || decide (p.2 = q.2)))

/-- The amended marker: the first character is the literal `'N'`
(case-sensitive), exactly what `startswith('N')` tests. -/
def newtonMarkedCS (id : String) : Bool :=
  match id.data with
  | [] => false
  | c :: _ => c == 'N'

/-- Amended id order: ids whose first character is literally `'N'` first,
plain lexical order within each partition. -/
def idLtCS (a b : String) : Bool :=
  (newtonMarkedCS a && !newtonMarkedCS b) ||
  ((newtonMarkedCS a == newtonMarkedCS b) && strLt a b)

/-- Amended two-level pair order (case-sensitive marker). -/
def pairLeCS (p q : String × String) : Bool :=
  idLtCS p.1 q.1 || (decide (p.1 = q.1) && (idLtCS p.2 q.2 || decide (p.2 = q.2)))

theorem newtonMarkedCS_eq_startsWithN (s : String) : newtonMarkedCS s = startsWithN s := rfl

theorem idLtCS_eq_bsLt (a b : String) :
    idLtCS a b = bsLt (sort_id_by_n_and_alpha a) (sort_id_by_n_and_alpha b) := by
  unfold idLtCS bsLt sort_id_by_n_and_alpha
  rw [newtonMarkedCS_eq_startsWithN, newtonMarkedCS_eq_startsWithN]
  cases startsWithN a <;> cases startsWithN b <;> simp

theorem pairKeyLe_imp_CS (p q : String × String) (h : pairKeyLe p q = true) :
    pairLeCS p q = true := by
  rw [pairKeyLe_iff] at h
  unfold pairLeCS
  rw [Bool.or_eq_true, Bool.and_eq_true, Bool.or_eq_true, idLtCS_eq_bsLt, idLtCS_eq_bsLt]
  rcases h with h | ⟨he, hs⟩
  · exact Or.inl h
  · refine Or.inr ⟨by rw [he]; simp, ?_⟩
    rcases hs with hs | hs
    · exact Or.inl hs
    · exact Or.inr (by rw [hs]; simp)

/-- If two distinct elements both occur in a list then any two `Pairwise`
relations on the list hold between them in a common order. -/
theorem pairwise_pair_of_mem {α : Type} {R S : α → α → Prop} :
    ∀ {l : List α}, List.Pairwise R l → List.Pairwise S l →
    ∀ {a b : α}, a ∈ l → b ∈ l → a ≠ b →
    (R a b ∧ S a b) ∨ (R b a ∧ S b a) := by
  intro l
  induction l with
  | nil =>
      intro _ _ a b ha
      cases ha
  | cons x t ih =>
      intro hR hS a b ha hb hab
      rw [List.pairwise_cons] at hR hS
      rcases List.mem_cons.mp ha with rfl | hat
      · rcases List.mem_cons.mp hb with rfl | hbt
        · exact absurd rfl hab
        · exact Or.inl ⟨hR.1 b hbt, hS.1 b hbt⟩
      · rcases List.mem_cons.mp hb with rfl | hbt
        · exact Or.inr ⟨hR.1 a hat, hS.1 a hat⟩
        · exact ih hR.2 hS.2 hat hbt hab


/-- The municipality mapping exactly as the spec words it: the uppercased
leading character maps `A`–`H` to Boston, each of the nine listed letters to
its fixed place name, and anything else (including the empty id) to `""`.
This is the spec-side definition used to check `get_municipality` against. -/
def municipalitySpec (station_id : String) : String :=
  match station_id.data with
  | [] => ""
  | c :: _ =>
      let u := c.toUpper
      if 'A' ≤ u ∧ u ≤ 'H' then "Boston"
      else if u = 'V' then "Medford"
      else if u = 'W' then "Watertown"
      else if u = 'T' then "Salem"
      else if u = 'K' then "Brookline"
      else if u = 'L' then "Lexington"
      else if u = 'M' then "Cambridge"
      else if u = 'N' then "Newton"
      else if u = 'R' then "Revere"
      else if u = 'S' then "Somerville"
      else ""

/-- C9: the municipality lookup is the total, stateless function of the
station id's uppercased leading character that the spec describes: `A`–`H`
give the fixed city name, the nine listed letters give their fixed place
names, and every other leading character — and the empty id — gives `""`. -/
theorem municipality_total_function (station_id : String) :
    get_municipality station_id = municipalitySpec station_id := by
  unfold get_municipality municipalitySpec
  cases h : station_id.data with
  | nil => rfl
  | cons c cs =>
      simp only
      by_cases hAH : 'A' ≤ c.toUpper ∧ c.toUpper ≤ 'H'
      · rw [if_pos hAH, if_pos hAH]
      · rw [if_neg hAH, if_neg hAH]
        simp only [muniTable, List.lookup]
        cases hb1 : (c.toUpper == 'V') with
        | true =>
            have h1 : c.toUpper = 'V' := by simpa using hb1
            rw [if_pos h1]; rfl
        | false =>
        rw [beq_eq_false_iff_ne] at hb1
        simp only [if_neg hb1]
        cases hb2 : (c.toUpper == 'W') with
        | true =>
            have h2 : c.toUpper = 'W' := by simpa using hb2
            rw [if_pos h2]; rfl
        | false =>
        rw [beq_eq_false_iff_ne] at hb2
        simp only [if_neg hb2]
        cases hb3 : (c.toUpper == 'T') with
        | true =>
            have h3 : c.toUpper = 'T' := by simpa using hb3
            rw [if_pos h3]; rfl
        | false =>
        rw [beq_eq_false_iff_ne] at hb3
        simp only [if_neg hb3]
        cases hb4 : (c.toUpper == 'K') with
        | true =>
            have h4 : c.toUpper = 'K' := by simpa using hb4
            rw [if_pos h4]; rfl
        | false =>
        rw [beq_eq_false_iff_ne] at hb4
        simp only [if_neg hb4]
        cases hb5 : (c.toUpper == 'L') with
        | true =>
            have h5 : c.toUpper = 'L' := by simpa using hb5
            rw [if_pos h5]; rfl
        | false =>
        rw [beq_eq_false_iff_ne] at hb5
        simp only [if_neg hb5]
        cases hb6 : (c.toUpper == 'M') with
        | true =>
            have h6 : c.toUpper = 'M' := by simpa using hb6
            rw [if_pos h6]; rfl
        | false =>
        rw [beq_eq_false_iff_ne] at hb6
        simp only [if_neg hb6]
        cases hb7 : (c.toUpper == 'N') with
        | true =>
            have h7 : c.toUpper = 'N' := by simpa using hb7
            rw [if_pos h7]; rfl
        | false =>
        rw [beq_eq_false_iff_ne] at hb7
        simp only [if_neg hb7]
        cases hb8 : (c.toUpper == 'R') with
        | true =>
            have h8 : c.toUpper = 'R' := by simpa using hb8
            rw [if_pos h8]; rfl
        | false =>
        rw [beq_eq_false_iff_ne] at hb8
        simp only [if_neg hb8]
        cases hb9 : (c.toUpper == 'S') with
        | true =>
            have h9 : c.toUpper = 'S' := by simpa using hb9
            rw [if_pos h9]; rfl
        | false =>
        rw [beq_eq_false_iff_ne] at hb9
        simp only [if_neg hb9]
        rfl

@[simp] theorem stationCapture_counts (st : StationStats) (n : String) (c : ℚ × ℚ) :
    (stationCapture st n c).trip_count_fwd = st.trip_count_fwd ∧
    (stationCapture st n c).trip_count_rev = st.trip_count_rev ∧
    (stationCapture st n c).electric_count_fwd = st.electric_count_fwd ∧
    (stationCapture st n c).electric_count_rev = st.electric_count_rev ∧
    (stationCapture st n c).total_duration_fwd = st.total_duration_fwd ∧
    (stationCapture st n c).total_duration_rev = st.total_duration_rev := by
  unfold stationCapture; split <;> simp

@[simp] theorem pairCapture_stats (e : PairEntry) (sn en : String) (sc ec : ℚ × ℚ) :
    (pairCapture e sn en sc ec).stats_fwd = e.stats_fwd ∧
    (pairCapture e sn en sc ec).stats_rev = e.stats_rev := by
  unfold pairCapture; split <;> simp

/-- Generic single-pass invariant preservation for a `foldl` loop. -/
theorem foldl_inv {α σ : Type} (step : σ → α → σ) (P : σ → Prop)
    (hP : ∀ s a, P s → P (step s a)) : ∀ (l : List α) (s : σ), P s → P (l.foldl step s) := by
  intro l
  induction l with
  | nil => intro s h; exact h
  | cons a t ih => intro s h; exact ih _ (hP _ _ h)

theorem stationStep_invalid (coords : String → Option (ℚ × ℚ)) (s : StationsState)
    (row : Row) (h : isValidTrip coords row = false) : stationStep coords s row = s := by
  unfold stationStep
  by_cases hg : row.start_station_id = "" ∨ row.end_station_id = "" ∨
      row.start_station_id = row.end_station_id
  · rw [if_pos hg]
  · rw [if_neg hg]
    cases hcs : coords row.start_station_id with
    | none => rfl
    | some sc =>
        cases hce : coords row.end_station_id with
        | none => rfl
        | some ec =>
            cases hd : duration_value row.duration_minutes with
            | none => rfl
            | some d =>
                exfalso
                push_neg at hg
                simp [isValidTrip, hcs, hce, hd, hg.1, hg.2.1, hg.2.2] at h

theorem pairStep_invalid (coords : String → Option (ℚ × ℚ)) (s : PairsState)
    (row : Row) (h : isValidTrip coords row = false) : pairStep coords s row = s := by
  unfold pairStep
  by_cases hg : row.start_station_id = "" ∨ row.end_station_id = "" ∨
      row.start_station_id = row.end_station_id
  · rw [if_pos hg]
  · rw [if_neg hg]
    cases hcs : coords row.start_station_id with
    | none => rfl
    | some sc =>
        cases hce : coords row.end_station_id with
        | none => rfl
        | some ec =>
            cases hd : duration_value row.duration_minutes with
            | none => rfl
            | some d =>
                exfalso
                push_neg at hg
                simp [isValidTrip, hcs, hce, hd, hg.1, hg.2.1, hg.2.2] at h

theorem isValidTrip_of_branch (coords : String → Option (ℚ × ℚ)) (row : Row)
    (hg : ¬(row.start_station_id = "" ∨ row.end_station_id = "" ∨
      row.start_station_id = row.end_station_id))
    (hcs : (coords row.start_station_id).isSome) (hce : (coords row.end_station_id).isSome)
    (hd : (duration_value row.duration_minutes).isSome) :
    isValidTrip coords row = true := by
  push_neg at hg
  simp [isValidTrip, hcs, hce, hd, hg.1, hg.2.1, hg.2.2]

theorem stationStep_valid (coords : String → Option (ℚ × ℚ)) (s : StationsState)
    (row : Row) (sc ec : ℚ × ℚ) (d : ℚ)
    (hg : ¬(row.start_station_id = "" ∨ row.end_station_id = "" ∨
      row.start_station_id = row.end_station_id))
    (hcs : coords row.start_station_id = some sc)
    (hce : coords row.end_station_id = some ec)
    (hd : duration_value row.duration_minutes = some d) :
    stationStep coords s row =
      ⟨Function.update
        (Function.update s.data row.start_station_id
          (stationUpdateFwd
            (stationCapture (s.data row.start_station_id)
              (format_station_name row.start_station_id row.start_station_name) sc) d
            (normalize_bike_type row.rideable_type == "electric_bike")))
        row.end_station_id
        (stationUpdateRev
          (stationCapture (s.data row.end_station_id)
            (format_station_name row.end_station_id row.end_station_name) ec) d
          (normalize_bike_type row.rideable_type == "electric_bike")),
       touchKey (touchKey s.keys row.start_station_id) row.end_station_id⟩ := by
  have hne : row.start_station_id ≠ row.end_station_id := by
    push_neg at hg; exact hg.2.2
  simp only [stationStep, if_neg hg, hcs, hce, hd]
  rw [Function.update_noteq (Ne.symm hne)]

theorem pairStep_valid (coords : String → Option (ℚ × ℚ)) (s : PairsState)
    (row : Row) (sc ec : ℚ × ℚ) (d : ℚ)
    (hg : ¬(row.start_station_id = "" ∨ row.end_station_id = "" ∨
      row.start_station_id = row.end_station_id))
    (hcs : coords row.start_station_id = some sc)
    (hce : coords row.end_station_id = some ec)
    (hd : duration_value row.duration_minutes = some d) :
    pairStep coords s row =
      ⟨Function.update
        (Function.update s.data (row.start_station_id, row.end_station_id)
          (let e1 := pairCapture (s.data (row.start_station_id, row.end_station_id))
            (format_station_name row.start_station_id row.start_station_name)
            (format_station_name row.end_station_id row.end_station_name) sc ec
           let f1 := e1.stats_fwd.addTrip d
            (normalize_bike_type row.rideable_type == "electric_bike")
           { e1 with stats_fwd := f1 }))
        (row.end_station_id, row.start_station_id)
        (let r1 := s.data (row.end_station_id, row.start_station_id)
         let v1 := r1.stats_rev.addTrip d
          (normalize_bike_type row.rideable_type == "electric_bike")
         pairCapture { r1 with stats_rev := v1 }
          (format_station_name row.end_station_id row.end_station_name)
          (format_station_name row.start_station_id row.start_station_name) ec sc),
       touchKey (touchKey s.keys (row.start_station_id, row.end_station_id))
         (row.end_station_id, row.start_station_id)⟩ := by
  have hne : row.start_station_id ≠ row.end_station_id := by
    push_neg at hg; exact hg.2.2
  have hkey : (row.end_station_id, row.start_station_id) ≠
      (row.start_station_id, row.end_station_id) := by
    intro hcontra
    exact hne (congrArg Prod.snd hcontra)
  simp only [pairStep, if_neg hg, hcs, hce, hd]
  rw [Function.update_noteq hkey]

theorem isValidTrip_components (coords : String → Option (ℚ × ℚ)) (row : Row)
    (h : isValidTrip coords row = true) :
    ¬(row.start_station_id = "" ∨ row.end_station_id = "" ∨
      row.start_station_id = row.end_station_id) ∧
    (coords row.start_station_id).isSome ∧ (coords row.end_station_id).isSome ∧
    (duration_value row.duration_minutes).isSome := by
  simp only [isValidTrip, Bool.and_eq_true, Bool.not_eq_true', beq_eq_false_iff_ne] at h
  obtain ⟨⟨⟨⟨⟨h1, h2⟩, h3⟩, h4⟩, h5⟩, h6⟩ := h
  exact ⟨by push_neg; exact ⟨h1, h2, h3⟩, h4, h5, h6⟩

/-- The symmetry preservation of one `pairStep`. -/
theorem pairStep_symm (coords : String → Option (ℚ × ℚ)) (s : PairsState) (row : Row)
    (hP : ∀ X Y : String, X ≠ Y →
      (s.data (X, Y)).stats_fwd = (s.data (Y, X)).stats_rev) :
    ∀ X Y : String, X ≠ Y →
      ((pairStep coords s row).data (X, Y)).stats_fwd
        = ((pairStep coords s row).data (Y, X)).stats_rev := by
  cases hv : isValidTrip coords row with
  | false => rw [pairStep_invalid coords s row hv]; exact hP
  | true =>
      obtain ⟨hg, hcs, hce, hd⟩ := isValidTrip_components coords row hv
      obtain ⟨sc, hsc⟩ := Option.isSome_iff_exists.mp hcs
      obtain ⟨ec, hec⟩ := Option.isSome_iff_exists.mp hce
      obtain ⟨d, hdv⟩ := Option.isSome_iff_exists.mp hd
      have hne : row.start_station_id ≠ row.end_station_id := by
        push_neg at hg; exact hg.2.2
      intro X Y hXY
      rw [pairStep_valid coords s row sc ec d hg hsc hec hdv]
      simp only [Function.update_apply]
      by_cases h1 : (X, Y) = (row.start_station_id, row.end_station_id)
      · rw [Prod.mk.injEq] at h1
        obtain ⟨hx, hy⟩ := h1
        subst hx
        subst hy
        simp [Prod.mk.injEq, hne, Ne.symm hne, (pairCapture_stats ..).1,
          (pairCapture_stats ..).2]
        rw [hP _ _ hne]
      · by_cases h2 : (X, Y) = (row.end_station_id, row.start_station_id)
        · rw [Prod.mk.injEq] at h2
          obtain ⟨hx, hy⟩ := h2
          subst hx
          subst hy
          simp [Prod.mk.injEq, hne, Ne.symm hne, (pairCapture_stats ..).1,
            (pairCapture_stats ..).2]
          exact hP _ _ (Ne.symm hne)
        · have h3 : (Y, X) ≠ (row.end_station_id, row.start_station_id) := by
            intro hc
            rw [Prod.mk.injEq] at hc
            exact h1 (by rw [Prod.mk.injEq]; exact ⟨hc.2, hc.1⟩)
          have h4 : (Y, X) ≠ (row.start_station_id, row.end_station_id) := by
            intro hc
            rw [Prod.mk.injEq] at hc
            exact h2 (by rw [Prod.mk.injEq]; exact ⟨hc.2, hc.1⟩)
          rw [if_neg h2, if_neg h1, if_neg h3, if_neg h4]
          exact hP X Y hXY

/-- A concrete record with fixed parseable coordinates, used in closed
witness statements. -/
def mkRow (sid eid sname ename : String) (dur : Cell) (rt : String) : Row :=
  { start_station_id := sid, end_station_id := eid,
    start_station_name := sname, end_station_name := ename,
    start_lat := Cell.num 42, start_lng := Cell.num (-71),
    end_lat := Cell.num 42, end_lng := Cell.num (-71),
    duration_minutes := dur, rideable_type := rt }

/-- The three-trip batch of the spec's scenario property. -/
def scenarioRows : List Row :=
  [mkRow "A1" "B1" "a" "b" (Cell.num 10) "classic_bike",
   mkRow "B1" "A1" "b" "a" (Cell.num 20) "electric_bike",
   mkRow "A1" "B1" "a" "b" (Cell.num 5) "electric_bike"]

/-- C1: for every input batch and distinct station ids `A ≠ B`, the forward
statistic block stored under key `(A, B)` equals the reverse statistic
block stored under key `(B, A)`: each valid trip `A -> B` updates both with
the same increment, and nothing else touches either block. -/
theorem pair_forward_reverse_symmetry (rows : List Row) (A B : String) (h : A ≠ B) :
    ((analyze_station_pairs_acc rows).data (A, B)).stats_fwd
      = ((analyze_station_pairs_acc rows).data (B, A)).stats_rev := by
  have main : ∀ X Y : String, X ≠ Y →
      ((analyze_station_pairs_acc rows).data (X, Y)).stats_fwd
        = ((analyze_station_pairs_acc rows).data (Y, X)).stats_rev := by
    unfold analyze_station_pairs_acc pairsFold
    exact foldl_inv (pairStep (avg_coords rows))
      (fun s => ∀ X Y : String, X ≠ Y → (s.data (X, Y)).stats_fwd = (s.data (Y, X)).stats_rev)
      (fun s row hs => pairStep_symm (avg_coords rows) s row hs) rows pairsInit
      (fun _ _ _ => rfl)
  exact main A B h

/-- Witness for C1 at the concrete scenario batch. -/
theorem pair_forward_reverse_symmetry_witness :
    ((analyze_station_pairs_acc scenarioRows).data ("A1", "B1")).stats_fwd
      = ((analyze_station_pairs_acc scenarioRows).data ("B1", "A1")).stats_rev :=
  pair_forward_reverse_symmetry scenarioRows "A1" "B1" (by decide)

theorem compute_weighted_average_zero (total_sum : ℚ) :
    compute_weighted_average total_sum 0 = 0 := by
  simp [compute_weighted_average]

/-- C5: every guarded derived metric resolves a zero denominator to `0`:
for any station or pair accumulator, each per-direction electric-bike
percentage and each per-direction or bidirectional weighted duration
average (total, electric-only, classic-only) is `0` whenever its count is
`0`; in particular zero forward trips give a zero forward percentage and a
zero forward duration average. -/
theorem zero_count_metrics_are_zero :
    (∀ total_sum : ℚ, compute_weighted_average total_sum 0 = 0) ∧
    (∀ stats : StationStats,
      (stats.trip_count_fwd = 0 →
        (deriveStation stats).fwd_e_pct = 0 ∧ (deriveStation stats).duration_fwd = 0 ∧
        (deriveStation stats).c_duration_fwd = 0) ∧
      (stats.trip_count_rev = 0 →
        (deriveStation stats).rev_e_pct = 0 ∧ (deriveStation stats).duration_rev = 0 ∧
        (deriveStation stats).c_duration_rev = 0) ∧
      (stats.trip_count_fwd + stats.trip_count_rev = 0 →
        (deriveStation stats).duration_bidir = 0) ∧
      (stats.electric_count_fwd = 0 → (deriveStation stats).e_duration_fwd = 0) ∧
      (stats.electric_count_rev = 0 → (deriveStation stats).e_duration_rev = 0) ∧
      (stats.electric_count_fwd + stats.electric_count_rev = 0 →
        (deriveStation stats).e_duration_bidir = 0) ∧
      (stats.trip_count_fwd - stats.electric_count_fwd = 0 →
        (deriveStation stats).c_duration_fwd = 0) ∧
      (stats.trip_count_rev - stats.electric_count_rev = 0 →
        (deriveStation stats).c_duration_rev = 0) ∧
      (stats.trip_count_fwd + stats.trip_count_rev -
          (stats.electric_count_fwd + stats.electric_count_rev) = 0 →
        (deriveStation stats).c_duration_bidir = 0)) ∧
    (∀ fwd rev : TripStats,
      (fwd.trip_count = 0 →
        (derivePair fwd rev).fwd_e_pct = 0 ∧ (derivePair fwd rev).duration_fwd = 0 ∧
        (derivePair fwd rev).c_duration_fwd = 0) ∧
      (rev.trip_count = 0 →
        (derivePair fwd rev).rev_e_pct = 0 ∧ (derivePair fwd rev).duration_rev = 0 ∧
        (derivePair fwd rev).c_duration_rev = 0) ∧
      (fwd.trip_count + rev.trip_count = 0 → (derivePair fwd rev).duration_bidir = 0) ∧
      (fwd.electric_count = 0 → (derivePair fwd rev).e_duration_fwd = 0) ∧
      (rev.electric_count = 0 → (derivePair fwd rev).e_duration_rev = 0) ∧
      (fwd.electric_count + rev.electric_count = 0 →
        (derivePair fwd rev).e_duration_bidir = 0) ∧
      (fwd.trip_count - fwd.electric_count = 0 → (derivePair fwd rev).c_duration_fwd = 0) ∧
      (rev.trip_count - rev.electric_count = 0 → (derivePair fwd rev).c_duration_rev = 0) ∧
      (fwd.trip_count + rev.trip_count - (fwd.electric_count + rev.electric_count) = 0 →
        (derivePair fwd rev).c_duration_bidir = 0)) := by
  refine ⟨compute_weighted_average_zero, fun stats => ?_, fun fwd rev => ?_⟩
  · refine ⟨fun h => ?_, fun h => ?_, fun h => ?_, fun h => ?_, fun h => ?_, fun h => ?_,
      fun h => ?_, fun h => ?_, fun h => ?_⟩ <;>
      simp [deriveStation, compute_weighted_average, h]
  · refine ⟨fun h => ?_, fun h => ?_, fun h => ?_, fun h => ?_, fun h => ?_, fun h => ?_,
      fun h => ?_, fun h => ?_, fun h => ?_⟩ <;>
      simp [derivePair, compute_weighted_average, h]

/-- Witness for C5: an accumulator with only reverse trips reports zero
forward metrics. -/
theorem zero_count_metrics_are_zero_witness :
    (deriveStation { StationStats.init with trip_count_rev := 1 }).fwd_e_pct = 0 ∧
    (deriveStation { StationStats.init with trip_count_rev := 1 }).duration_fwd = 0 ∧
    (deriveStation { StationStats.init with trip_count_rev := 1 }).c_duration_fwd = 0 :=
  (zero_count_metrics_are_zero.2.1 { StationStats.init with trip_count_rev := 1 }).1 rfl

/-- A batch exposing the non-atomic coordinate skip: the first record's
start latitude parses (`42`) but its start longitude does not; the second
record carries one fully valid observation `(41, -71)` for the same id. -/
def coordBugRows : List Row :=
  [{ start_station_id := "A", end_station_id := "", start_station_name := "",
     end_station_name := "", start_lat := Cell.num 42, start_lng := Cell.bad,
     end_lat := Cell.absent, end_lng := Cell.absent,
     duration_minutes := Cell.absent, rideable_type := "" },
   { start_station_id := "A", end_station_id := "", start_station_name := "",
     end_station_name := "", start_lat := Cell.num 41, start_lng := Cell.num (-71),
     end_lat := Cell.absent, end_lng := Cell.absent,
     duration_minutes := Cell.absent, rideable_type := "" }]

/-- C3: the coordinate pass is NOT atomic per endpoint. On `coordBugRows`
the only endpoint whose coordinates both parse is `(41, -71)`, so a fully
skipped first record would leave sums `(41, -71)` with count `1` and an
average latitude of `41`; the code instead keeps the first record's
latitude increment (`lat_sum = 42 + 41 = 83`) without incrementing the
count, and reports the impossible average latitude `83`. -/
theorem coordinate_skip_not_atomic :
    compute_station_coordinates coordBugRows "A"
        = { lat_sum := 83, lng_sum := -71, count := 1 } ∧
    compute_station_coordinates coordBugRows "A"
        ≠ { lat_sum := 41, lng_sum := -71, count := 1 } ∧
    avg_coords coordBugRows "A" = some (83, -71) := by
  have key : compute_station_coordinates coordBugRows "A"
      = { lat_sum := 83, lng_sum := -71, count := 1 } := by
    simp [compute_station_coordinates, coordBugRows, addEndpoint, Function.update,
      CoordSums.init]
    norm_num
  refine ⟨key, ?_, ?_⟩
  · rw [key]
    intro hcontra
    have h42 := congrArg CoordSums.lat_sum hcontra
    norm_num at h42
  · rw [avg_coords, key]
    norm_num

/-- C10: a trip record whose `duration_minutes` key is absent is treated as
having duration `0.0` by both passes: it passes the validity test when the
remaining conditions hold, increments the trip counts, and adds `0` to the
duration sums (exclusion on duration applies only to present, unparseable
values). -/
theorem absent_duration_counts_as_zero (coords : String → Option (ℚ × ℚ))
    (s : StationsState) (p : PairsState) (row : Row)
    (hd : row.duration_minutes = Cell.absent)
    (h1 : row.start_station_id ≠ "") (h2 : row.end_station_id ≠ "")
    (h3 : row.start_station_id ≠ row.end_station_id)
    (h4 : (coords row.start_station_id).isSome)
    (h5 : (coords row.end_station_id).isSome) :
    isValidTrip coords row = true ∧
    ((stationStep coords s row).data row.start_station_id).trip_count_fwd
      = (s.data row.start_station_id).trip_count_fwd + 1 ∧
    ((stationStep coords s row).data row.start_station_id).total_duration_fwd
      = (s.data row.start_station_id).total_duration_fwd ∧
    ((pairStep coords p row).data (row.start_station_id, row.end_station_id)).stats_fwd.trip_count
      = (p.data (row.start_station_id, row.end_station_id)).stats_fwd.trip_count + 1 ∧
    ((pairStep coords p row).data (row.start_station_id, row.end_station_id)).stats_fwd.total_duration
      = (p.data (row.start_station_id, row.end_station_id)).stats_fwd.total_duration := by
  have hg : ¬(row.start_station_id = "" ∨ row.end_station_id = "" ∨
      row.start_station_id = row.end_station_id) := by
    push_neg
    exact ⟨h1, h2, h3⟩
  obtain ⟨sc, hsc⟩ := Option.isSome_iff_exists.mp h4
  obtain ⟨ec, hec⟩ := Option.isSome_iff_exists.mp h5
  have hdv : duration_value row.duration_minutes = some 0 := by
    rw [hd]; rfl
  refine ⟨isValidTrip_of_branch coords row hg h4 h5 (by rw [hdv]; rfl), ?_, ?_, ?_, ?_⟩
  · rw [stationStep_valid coords s row sc ec 0 hg hsc hec hdv]
    simp [Function.update_apply, h3, stationUpdateFwd, (stationCapture_counts ..).1]
    split <;> simp [(stationCapture_counts ..).1]
  · rw [stationStep_valid coords s row sc ec 0 hg hsc hec hdv]
    simp [Function.update_apply, h3, stationUpdateFwd]
    split <;> simp [(stationCapture_counts ..).2.2.2.2.1]
  · rw [pairStep_valid coords p row sc ec 0 hg hsc hec hdv]
    have hkey : (row.start_station_id, row.end_station_id) ≠
        (row.end_station_id, row.start_station_id) := by
      intro hc
      exact h3 (congrArg Prod.fst hc)
    simp [Function.update_apply, hkey, TripStats.addTrip, (pairCapture_stats ..).1]
    split <;> simp
  · rw [pairStep_valid coords p row sc ec 0 hg hsc hec hdv]
    have hkey : (row.start_station_id, row.end_station_id) ≠
        (row.end_station_id, row.start_station_id) := by
      intro hc
      exact h3 (congrArg Prod.fst hc)
    simp [Function.update_apply, hkey, TripStats.addTrip, (pairCapture_stats ..).1]
    split <;> simp

@[simp] theorem stationUpdateFwd_fwd (st : StationStats) (d : ℚ) (el : Bool) :
    (stationUpdateFwd st d el).trip_count_fwd = st.trip_count_fwd + 1 := by
  unfold stationUpdateFwd; split <;> simp

@[simp] theorem stationUpdateFwd_rev (st : StationStats) (d : ℚ) (el : Bool) :
    (stationUpdateFwd st d el).trip_count_rev = st.trip_count_rev := by
  unfold stationUpdateFwd; split <;> simp

@[simp] theorem stationUpdateRev_rev (st : StationStats) (d : ℚ) (el : Bool) :
    (stationUpdateRev st d el).trip_count_rev = st.trip_count_rev + 1 := by
  unfold stationUpdateRev; split <;> simp

@[simp] theorem stationUpdateRev_fwd (st : StationStats) (d : ℚ) (el : Bool) :
    (stationUpdateRev st d el).trip_count_fwd = st.trip_count_fwd := by
  unfold stationUpdateRev; split <;> simp

@[simp] theorem addTrip_count (t : TripStats) (d : ℚ) (el : Bool) :
    (t.addTrip d el).trip_count = t.trip_count + 1 := by
  unfold TripStats.addTrip; split <;> simp

/-- C4: a trip contributes to the station accumulators if and only if it
is valid — both ids non-empty, origin distinct from destination, both ids
present in the averaged-coordinate map, duration parses — and likewise,
with the identical validity test, to the pair accumulators: each pass's
loop step leaves its state untouched exactly when the test fails. -/
theorem trip_contributes_iff_valid (coords : String → Option (ℚ × ℚ))
    (s : StationsState) (p : PairsState) (row : Row) :
    (stationStep coords s row = s ↔ isValidTrip coords row = false) ∧
    (pairStep coords p row = p ↔ isValidTrip coords row = false) := by
  constructor
  · constructor
    · intro hst
      cases hv : isValidTrip coords row with
      | false => rfl
      | true =>
          exfalso
          obtain ⟨hg, hcs, hce, hd⟩ := isValidTrip_components coords row hv
          obtain ⟨sc, hsc⟩ := Option.isSome_iff_exists.mp hcs
          obtain ⟨ec, hec⟩ := Option.isSome_iff_exists.mp hce
          obtain ⟨d, hdv⟩ := Option.isSome_iff_exists.mp hd
          have hne : row.start_station_id ≠ row.end_station_id := by
            push_neg at hg; exact hg.2.2
          rw [stationStep_valid coords s row sc ec d hg hsc hec hdv] at hst
          have hdata := congrFun (congrArg DMap.data hst) row.start_station_id
          simp only [Function.update_apply, if_neg hne, eq_self_iff_true, if_true] at hdata
          have hcount := congrArg StationStats.trip_count_fwd hdata
          rw [stationUpdateFwd_fwd, (stationCapture_counts ..).1] at hcount
          omega
    · intro hv
      exact stationStep_invalid coords s row hv
  · constructor
    · intro hpr
      cases hv : isValidTrip coords row with
      | false => rfl
      | true =>
          exfalso
          obtain ⟨hg, hcs, hce, hd⟩ := isValidTrip_components coords row hv
          obtain ⟨sc, hsc⟩ := Option.isSome_iff_exists.mp hcs
          obtain ⟨ec, hec⟩ := Option.isSome_iff_exists.mp hce
          obtain ⟨d, hdv⟩ := Option.isSome_iff_exists.mp hd
          have hne : row.start_station_id ≠ row.end_station_id := by
            push_neg at hg; exact hg.2.2
          have hkey : (row.start_station_id, row.end_station_id) ≠
              (row.end_station_id, row.start_station_id) := by
            intro hc
            exact hne (congrArg Prod.fst hc)
          rw [pairStep_valid coords p row sc ec d hg hsc hec hdv] at hpr
          have hdata := congrFun (congrArg DMap.data hpr)
            (row.start_station_id, row.end_station_id)
          simp only [Function.update_apply, if_neg hkey, eq_self_iff_true, if_true] at hdata
          have hcount := congrArg (fun e => e.stats_fwd.trip_count) hdata
          simp only [addTrip_count, (pairCapture_stats ..).1] at hcount
          omega
    · intro hv
      exact pairStep_invalid coords p row hv

theorem mem_touchKey {κ : Type} [DecidableEq κ] {ks : List κ} {k a : κ} :
    k ∈ touchKey ks a ↔ k ∈ ks ∨ k = a := by
  unfold touchKey
  split
  · next h =>
      constructor
      · exact Or.inl
      · intro hk
        cases hk with
        | inl hk => exact hk
        | inr hk => exact hk ▸ h
  · simp [List.mem_append]

/-- Positivity preservation of one `stationStep`: every created key holds at
least one directional trip. -/
theorem stationStep_pos (coords : String → Option (ℚ × ℚ)) (s : StationsState) (row : Row)
    (hP : ∀ k ∈ s.keys, 0 < (s.data k).trip_count_fwd + (s.data k).trip_count_rev) :
    ∀ k ∈ (stationStep coords s row).keys,
      0 < ((stationStep coords s row).data k).trip_count_fwd
          + ((stationStep coords s row).data k).trip_count_rev := by
  cases hv : isValidTrip coords row with
  | false => rw [stationStep_invalid coords s row hv]; exact hP
  | true =>
      obtain ⟨hg, hcs, hce, hd⟩ := isValidTrip_components coords row hv
      obtain ⟨sc, hsc⟩ := Option.isSome_iff_exists.mp hcs
      obtain ⟨ec, hec⟩ := Option.isSome_iff_exists.mp hce
      obtain ⟨d, hdv⟩ := Option.isSome_iff_exists.mp hd
      intro k hk
      rw [stationStep_valid coords s row sc ec d hg hsc hec hdv] at hk ⊢
      simp only [Function.update_apply]
      by_cases hke : k = row.end_station_id
      · rw [if_pos hke]
        simp [(stationCapture_counts ..).1, (stationCapture_counts ..).2.1]
      · rw [if_neg hke]
        by_cases hks : k = row.start_station_id
        · rw [if_pos hks]
          simp [(stationCapture_counts ..).1, (stationCapture_counts ..).2.1]
        · rw [if_neg hks]
          apply hP
          simp only [mem_touchKey] at hk
          rcases hk with (hk | hk) | hk
          · exact hk
          · exact absurd hk hks
          · exact absurd hk hke

/-- Positivity preservation of one `pairStep`. -/
theorem pairStep_pos (coords : String → Option (ℚ × ℚ)) (s : PairsState) (row : Row)
    (hP : ∀ k ∈ s.keys,
      0 < (s.data k).stats_fwd.trip_count + (s.data k).stats_rev.trip_count) :
    ∀ k ∈ (pairStep coords s row).keys,
      0 < ((pairStep coords s row).data k).stats_fwd.trip_count
          + ((pairStep coords s row).data k).stats_rev.trip_count := by
  cases hv : isValidTrip coords row with
  | false => rw [pairStep_invalid coords s row hv]; exact hP
  | true =>
      obtain ⟨hg, hcs, hce, hd⟩ := isValidTrip_components coords row hv
      obtain ⟨sc, hsc⟩ := Option.isSome_iff_exists.mp hcs
      obtain ⟨ec, hec⟩ := Option.isSome_iff_exists.mp hce
      obtain ⟨d, hdv⟩ := Option.isSome_iff_exists.mp hd
      intro k hk
      rw [pairStep_valid coords s row sc ec d hg hsc hec hdv] at hk ⊢
      simp only [Function.update_apply]
      by_cases hke : k = (row.end_station_id, row.start_station_id)
      · rw [if_pos hke]
        simp [(pairCapture_stats ..).1, (pairCapture_stats ..).2]
      · rw [if_neg hke]
        by_cases hks : k = (row.start_station_id, row.end_station_id)
        · rw [if_pos hks]
          simp [(pairCapture_stats ..).1, (pairCapture_stats ..).2]
        · rw [if_neg hks]
          apply hP
          simp only [mem_touchKey] at hk
          rcases hk with (hk | hk) | hk
          · exact hk
          · exact absurd hk hks
          · exact absurd hk hke

/-- C6: the combined bidirectional trip count of every accumulator entry is
strictly positive — every entry ever created in either map receives at
least one directional trip — and every entry that survives to the
derived-metric stage (the report key lists, after the zero-total skip) has
a positive combined count, so the unguarded bidirectional-percentage
division never divides by zero. -/
theorem bidirectional_count_positive (rows : List Row) :
    (∀ k ∈ (analyze_stations_acc rows).keys,
      0 < ((analyze_stations_acc rows).data k).trip_count_fwd
          + ((analyze_stations_acc rows).data k).trip_count_rev) ∧
    (∀ k ∈ (analyze_station_pairs_acc rows).keys,
      0 < ((analyze_station_pairs_acc rows).data k).stats_fwd.trip_count
          + ((analyze_station_pairs_acc rows).data k).stats_rev.trip_count) ∧
    (∀ k ∈ stationReportKeys (analyze_stations_acc rows),
      0 < ((analyze_stations_acc rows).data k).trip_count_fwd
          + ((analyze_stations_acc rows).data k).trip_count_rev) ∧
    (∀ k ∈ pairReportKeys (analyze_station_pairs_acc rows),
      0 < ((analyze_station_pairs_acc rows).data k).stats_fwd.trip_count
          + ((analyze_station_pairs_acc rows).data k).stats_rev.trip_count) := by
  refine ⟨?_, ?_, ?_, ?_⟩
  · unfold analyze_stations_acc stationsFold
    exact foldl_inv (stationStep (avg_coords rows))
      (fun s => ∀ k ∈ s.keys, 0 < (s.data k).trip_count_fwd + (s.data k).trip_count_rev)
      (fun s row hs => stationStep_pos (avg_coords rows) s row hs) rows stationsInit
      (by intro k hk; cases hk)
  · unfold analyze_station_pairs_acc pairsFold
    exact foldl_inv (pairStep (avg_coords rows))
      (fun s => ∀ k ∈ s.keys,
        0 < (s.data k).stats_fwd.trip_count + (s.data k).stats_rev.trip_count)
      (fun s row hs => pairStep_pos (avg_coords rows) s row hs) rows pairsInit
      (by intro k hk; cases hk)
  · intro k hk
    rw [stationReportKeys, List.mem_filter] at hk
    have := hk.2
    simp only [Bool.not_eq_true', beq_eq_false_iff_ne] at this
    omega
  · intro k hk
    rw [pairReportKeys, List.mem_filter] at hk
    have := hk.2
    simp only [Bool.not_eq_true', beq_eq_false_iff_ne] at this
    omega

/-- Witness for C6 at the concrete scenario batch. -/
theorem bidirectional_count_positive_witness :
    0 < ((analyze_stations_acc scenarioRows).data "A1").trip_count_fwd
        + ((analyze_stations_acc scenarioRows).data "A1").trip_count_rev ∧
    0 < ((analyze_station_pairs_acc scenarioRows).data ("A1", "B1")).stats_fwd.trip_count
        + ((analyze_station_pairs_acc scenarioRows).data ("A1", "B1")).stats_rev.trip_count :=
  ⟨(bidirectional_count_positive scenarioRows).1 "A1" (by decide),
   (bidirectional_count_positive scenarioRows).2.1 ("A1", "B1") (by decide)⟩

/-- Total of the forward trip counts over all created station entries. -/
def sumFwd (s : StationsState) : ℕ :=
  (s.keys.map fun k => (s.data k).trip_count_fwd).sum

/-- Total of the reverse trip counts over all created station entries. -/
def sumRev (s : StationsState) : ℕ :=
  (s.keys.map fun k => (s.data k).trip_count_rev).sum

theorem touchKey_nodup {κ : Type} [DecidableEq κ] {ks : List κ} (hnd : ks.Nodup) (a : κ) :
    (touchKey ks a).Nodup := by
  unfold touchKey
  split
  · exact hnd
  · next h =>
      rw [List.nodup_append]
      refine ⟨hnd, List.nodup_singleton a, ?_⟩
      intro x hx hxa
      rw [List.mem_singleton] at hxa
      subst hxa
      exact h hx

theorem sum_map_update_mem {κ : Type} [DecidableEq κ] {ks : List κ} (hnd : ks.Nodup)
    {a : κ} (ha : a ∈ ks) (f : κ → ℕ) (c : ℕ) :
    (ks.map fun k => Function.update f a (f a + c) k).sum = (ks.map f).sum + c := by
  induction ks with
  | nil => cases ha
  | cons b t ih =>
      rw [List.nodup_cons] at hnd
      cases List.mem_cons.mp ha with
      | inl hab =>
          subst hab
          have ht : t.map (fun k => Function.update f a (f a + c) k) = t.map f :=
            List.map_congr_left fun k hk =>
              Function.update_noteq (fun he => hnd.1 (by rw [← he]; exact hk)) _ _
          rw [List.map_cons, List.map_cons, List.sum_cons, List.sum_cons, ht,
            Function.update_same]
          omega
      | inr hat =>
          have hba : b ≠ a := fun he => hnd.1 (by rw [he]; exact hat)
          simp only [List.map_cons, List.sum_cons, Function.update_noteq hba,
            ih hnd.2 hat]
          omega

theorem sum_map_touch_update {κ : Type} [DecidableEq κ] {ks : List κ} (hnd : ks.Nodup)
    (a : κ) (f : κ → ℕ) (c : ℕ) (hfresh : a ∉ ks → f a = 0) :
    ((touchKey ks a).map fun k => Function.update f a (f a + c) k).sum
      = (ks.map f).sum + c := by
  unfold touchKey
  split
  · next h => exact sum_map_update_mem hnd h f c
  · next h =>
      have h1 : ks.map (fun k => Function.update f a (f a + c) k) = ks.map f :=
        List.map_congr_left fun k hk =>
          Function.update_noteq (fun he => h (by rw [← he]; exact hk)) _ _
      rw [List.map_append, List.sum_append, h1]
      simp [Function.update_same, hfresh h]

theorem sum_map_double_touch_update {κ : Type} [DecidableEq κ] {ks : List κ}
    (hnd : ks.Nodup) (a b : κ) (hab : a ≠ b) (f : κ → ℕ) (ca cb : ℕ)
    (hfa : a ∉ ks → f a = 0) (hfb : b ∉ ks → f b = 0) :
    ((touchKey (touchKey ks a) b).map
      (fun k => Function.update (Function.update f a (f a + ca)) b
        ((Function.update f a (f a + ca)) b + cb) k)).sum
      = (ks.map f).sum + ca + cb := by
  have h1 : (touchKey ks a).Nodup := touchKey_nodup hnd a
  have hf1 : b ∉ touchKey ks a → (Function.update f a (f a + ca)) b = 0 := by
    intro hb
    rw [Function.update_noteq (Ne.symm hab)]
    apply hfb
    intro hbks
    exact hb ((mem_touchKey).mpr (Or.inl hbks))
  rw [sum_map_touch_update h1 b _ cb hf1, sum_map_touch_update hnd a f ca hfa]

/-- Bookkeeping effect of one `stationStep`: key list stays duplicate-free,
untouched keys stay at the default entry, and each directional total grows
by one exactly on a valid trip. -/
theorem stationStep_sums (coords : String → Option (ℚ × ℚ)) (s : StationsState) (row : Row)
    (hnd : s.keys.Nodup) (hfresh : ∀ k ∉ s.keys, s.data k = StationStats.init) :
    (stationStep coords s row).keys.Nodup ∧
    (∀ k ∉ (stationStep coords s row).keys,
      (stationStep coords s row).data k = StationStats.init) ∧
    sumFwd (stationStep coords s row)
      = sumFwd s + (if isValidTrip coords row = true then 1 else 0) ∧
    sumRev (stationStep coords s row)
      = sumRev s + (if isValidTrip coords row = true then 1 else 0) := by
  cases hv : isValidTrip coords row with
  | false =>
      rw [stationStep_invalid coords s row hv]
      refine ⟨hnd, hfresh, by simp, by simp⟩
  | true =>
      obtain ⟨hg, hcs, hce, hd⟩ := isValidTrip_components coords row hv
      obtain ⟨sc, hsc⟩ := Option.isSome_iff_exists.mp hcs
      obtain ⟨ec, hec⟩ := Option.isSome_iff_exists.mp hce
      obtain ⟨d, hdv⟩ := Option.isSome_iff_exists.mp hd
      have hne : row.start_station_id ≠ row.end_station_id := by
        push_neg at hg; exact hg.2.2
      rw [stationStep_valid coords s row sc ec d hg hsc hec hdv]
      set a := row.start_station_id with ha
      set b := row.end_station_id with hb
      set st := stationUpdateFwd
        (stationCapture (s.data a) (format_station_name a row.start_station_name) sc) d
        (normalize_bike_type row.rideable_type == "electric_bike") with hst
      set en := stationUpdateRev
        (stationCapture (s.data b) (format_station_name b row.end_station_name) ec) d
        (normalize_bike_type row.rideable_type == "electric_bike") with hen
      have hstf : st.trip_count_fwd = (s.data a).trip_count_fwd + 1 := by
        rw [hst, stationUpdateFwd_fwd, (stationCapture_counts ..).1]
      have hstr : st.trip_count_rev = (s.data a).trip_count_rev := by
        rw [hst, stationUpdateFwd_rev, (stationCapture_counts ..).2.1]
      have henf : en.trip_count_fwd = (s.data b).trip_count_fwd := by
        rw [hen, stationUpdateRev_fwd, (stationCapture_counts ..).1]
      have henr : en.trip_count_rev = (s.data b).trip_count_rev + 1 := by
        rw [hen, stationUpdateRev_rev, (stationCapture_counts ..).2.1]
      have hnd1 : (touchKey s.keys a).Nodup := touchKey_nodup hnd a
      refine ⟨touchKey_nodup hnd1 b, ?_, ?_, ?_⟩
      · intro k hk
        rw [mem_touchKey] at hk
        push_neg at hk
        show Function.update (Function.update s.data a st) b en k = StationStats.init
        rw [Function.update_noteq hk.2]
        rw [mem_touchKey] at hk
        have hk1 := hk.1
        push_neg at hk1
        rw [Function.update_noteq hk1.2]
        exact hfresh k hk1.1
      · show ((touchKey (touchKey s.keys a) b).map
            fun k => ((Function.update (Function.update s.data a st) b en) k).trip_count_fwd).sum
            = sumFwd s + 1
        have hFwd : ∀ k, ((Function.update (Function.update s.data a st) b en) k).trip_count_fwd
            = Function.update
                (Function.update (fun j => (s.data j).trip_count_fwd) a
                  ((fun j => (s.data j).trip_count_fwd) a + 1)) b
                ((Function.update (fun j => (s.data j).trip_count_fwd) a
                  ((fun j => (s.data j).trip_count_fwd) a + 1)) b + 0) k := by
          intro k
          by_cases hk1 : k = b
          · subst hk1
            rw [Function.update_same, Function.update_same,
              Function.update_noteq (Ne.symm hne), henf]
            omega
          · rw [Function.update_noteq hk1, Function.update_noteq hk1]
            by_cases hk2 : k = a
            · subst hk2
              rw [Function.update_same, Function.update_same, hstf]
            · rw [Function.update_noteq hk2, Function.update_noteq hk2]
        simp only [hFwd]
        have := sum_map_double_touch_update hnd a b hne
          (fun j => (s.data j).trip_count_fwd) 1 0
          (fun hka => by show (s.data a).trip_count_fwd = 0; rw [hfresh a hka]; rfl)
          (fun hkb => by show (s.data b).trip_count_fwd = 0; rw [hfresh b hkb]; rfl)
        rw [this]
        rfl
      · show ((touchKey (touchKey s.keys a) b).map
            fun k => ((Function.update (Function.update s.data a st) b en) k).trip_count_rev).sum
            = sumRev s + 1
        have hRev : ∀ k, ((Function.update (Function.update s.data a st) b en) k).trip_count_rev
            = Function.update
                (Function.update (fun j => (s.data j).trip_count_rev) a
                  ((fun j => (s.data j).trip_count_rev) a + 0)) b
                ((Function.update (fun j => (s.data j).trip_count_rev) a
                  ((fun j => (s.data j).trip_count_rev) a + 0)) b + 1) k := by
          intro k
          by_cases hk1 : k = b
          · subst hk1
            rw [Function.update_same, Function.update_same,
              Function.update_noteq (Ne.symm hne), henr]
          · rw [Function.update_noteq hk1, Function.update_noteq hk1]
            by_cases hk2 : k = a
            · subst hk2
              rw [Function.update_same, Function.update_same, hstr]
              show (s.data a).trip_count_rev = (s.data a).trip_count_rev + 0
              omega
            · rw [Function.update_noteq hk2, Function.update_noteq hk2]
        simp only [hRev]
        have := sum_map_double_touch_update hnd a b hne
          (fun j => (s.data j).trip_count_rev) 0 1
          (fun hka => by show (s.data a).trip_count_rev = 0; rw [hfresh a hka]; rfl)
          (fun hkb => by show (s.data b).trip_count_rev = 0; rw [hfresh b hkb]; rfl)
        rw [this]
        rfl

/-- The whole-batch version of `stationStep_sums`. -/
theorem stationsFold_sums (coords : String → Option (ℚ × ℚ)) :
    ∀ (rows : List Row) (s : StationsState), s.keys.Nodup →
    (∀ k ∉ s.keys, s.data k = StationStats.init) →
    (stationsFold coords s rows).keys.Nodup ∧
    (∀ k ∉ (stationsFold coords s rows).keys,
      (stationsFold coords s rows).data k = StationStats.init) ∧
    sumFwd (stationsFold coords s rows)
      = sumFwd s + rows.countP (fun r => isValidTrip coords r) ∧
    sumRev (stationsFold coords s rows)
      = sumRev s + rows.countP (fun r => isValidTrip coords r) := by
  intro rows
  induction rows with
  | nil =>
      intro s h1 h2
      exact ⟨h1, h2, by simp [stationsFold], by simp [stationsFold]⟩
  | cons r t ih =>
      intro s h1 h2
      have hstep := stationStep_sums coords s r h1 h2
      have hrec := ih (stationStep coords s r) hstep.1 hstep.2.1
      have hfold : stationsFold coords s (r :: t)
          = stationsFold coords (stationStep coords s r) t := rfl
      refine ⟨hfold ▸ hrec.1, hfold ▸ hrec.2.1, ?_, ?_⟩
      · rw [hfold, hrec.2.2.1, hstep.2.2.1, List.countP_cons]
        cases hvr : isValidTrip coords r <;> simp [hvr] <;> omega
      · rw [hfold, hrec.2.2.2, hstep.2.2.2, List.countP_cons]
        cases hvr : isValidTrip coords r <;> simp [hvr] <;> omega

theorem sum_map_filter_of_zero {κ : Type} (l : List κ) (p : κ → Bool) (f : κ → ℕ)
    (h : ∀ k ∈ l, p k = false → f k = 0) :
    ((l.filter p).map f).sum = (l.map f).sum := by
  induction l with
  | nil => rfl
  | cons a t ih =>
      rw [List.filter_cons]
      have ht := ih (fun k hk hpk => h k (List.mem_cons_of_mem a hk) hpk)
      cases hpa : p a with
      | true => simp [hpa, ht]
      | false => simp [hpa, ht, h a (List.mem_cons_self a t) hpa]

/-- C2: the station report conserves trips — the forward counts over all
report rows and the reverse counts over all report rows each sum to the
number of valid (non-excluded) trips in the batch, hence to each other. -/
theorem trip_count_conservation (rows : List Row) :
    ((stationReportKeys (analyze_stations_acc rows)).map
      (fun k => ((analyze_stations_acc rows).data k).trip_count_fwd)).sum
      = rows.countP (fun r => isValidTrip (avg_coords rows) r) ∧
    ((stationReportKeys (analyze_stations_acc rows)).map
      (fun k => ((analyze_stations_acc rows).data k).trip_count_rev)).sum
      = rows.countP (fun r => isValidTrip (avg_coords rows) r) ∧
    ((stationReportKeys (analyze_stations_acc rows)).map
      (fun k => ((analyze_stations_acc rows).data k).trip_count_fwd)).sum
      = ((stationReportKeys (analyze_stations_acc rows)).map
        (fun k => ((analyze_stations_acc rows).data k).trip_count_rev)).sum := by
  have hfold := stationsFold_sums (avg_coords rows) rows stationsInit
    List.nodup_nil (fun _ _ => rfl)
  have hF : ((stationReportKeys (analyze_stations_acc rows)).map
      (fun k => ((analyze_stations_acc rows).data k).trip_count_fwd)).sum
      = rows.countP (fun r => isValidTrip (avg_coords rows) r) := by
    rw [stationReportKeys, sum_map_filter_of_zero _ _ _ ?hzf]
    case hzf =>
      intro k _ hpk
      simp only [Bool.not_eq_false', beq_iff_eq] at hpk
      omega
    have hperm : List.Perm
        (((analyze_stations_acc rows).keys.mergeSort strLe).map
          (fun k => ((analyze_stations_acc rows).data k).trip_count_fwd))
        ((analyze_stations_acc rows).keys.map
          (fun k => ((analyze_stations_acc rows).data k).trip_count_fwd)) :=
      (List.mergeSort_perm (analyze_stations_acc rows).keys strLe).map _
    rw [hperm.sum_eq]
    show sumFwd (analyze_stations_acc rows) = _
    rw [show analyze_stations_acc rows
        = stationsFold (avg_coords rows) stationsInit rows from rfl, hfold.2.2.1]
    simp [sumFwd, stationsInit]
  have hR : ((stationReportKeys (analyze_stations_acc rows)).map
      (fun k => ((analyze_stations_acc rows).data k).trip_count_rev)).sum
      = rows.countP (fun r => isValidTrip (avg_coords rows) r) := by
    rw [stationReportKeys, sum_map_filter_of_zero _ _ _ ?hzr]
    case hzr =>
      intro k _ hpk
      simp only [Bool.not_eq_false', beq_iff_eq] at hpk
      omega
    have hperm : List.Perm
        (((analyze_stations_acc rows).keys.mergeSort strLe).map
          (fun k => ((analyze_stations_acc rows).data k).trip_count_rev))
        ((analyze_stations_acc rows).keys.map
          (fun k => ((analyze_stations_acc rows).data k).trip_count_rev)) :=
      (List.mergeSort_perm (analyze_stations_acc rows).keys strLe).map _
    rw [hperm.sum_eq]
    show sumRev (analyze_stations_acc rows) = _
    rw [show analyze_stations_acc rows
        = stationsFold (avg_coords rows) stationsInit rows from rfl, hfold.2.2.2]
    simp [sumRev, stationsInit]
  exact ⟨hF, hR, by rw [hF, hR]⟩

/-- Witness for C10 at a concrete record with no duration cell. -/
theorem absent_duration_counts_as_zero_witness :
    isValidTrip (avg_coords [mkRow "A1" "B1" "a" "b" Cell.absent "classic_bike"])
      (mkRow "A1" "B1" "a" "b" Cell.absent "classic_bike") = true ∧
    ((stationStep (avg_coords [mkRow "A1" "B1" "a" "b" Cell.absent "classic_bike"])
        stationsInit (mkRow "A1" "B1" "a" "b" Cell.absent "classic_bike")).data "A1").trip_count_fwd
      = (stationsInit.data "A1").trip_count_fwd + 1 ∧
    ((stationStep (avg_coords [mkRow "A1" "B1" "a" "b" Cell.absent "classic_bike"])
        stationsInit (mkRow "A1" "B1" "a" "b" Cell.absent "classic_bike")).data "A1").total_duration_fwd
      = (stationsInit.data "A1").total_duration_fwd ∧
    ((pairStep (avg_coords [mkRow "A1" "B1" "a" "b" Cell.absent "classic_bike"])
        pairsInit (mkRow "A1" "B1" "a" "b" Cell.absent "classic_bike")).data ("A1", "B1")).stats_fwd.trip_count
      = (pairsInit.data ("A1", "B1")).stats_fwd.trip_count + 1 ∧
    ((pairStep (avg_coords [mkRow "A1" "B1" "a" "b" Cell.absent "classic_bike"])
        pairsInit (mkRow "A1" "B1" "a" "b" Cell.absent "classic_bike")).data ("A1", "B1")).stats_fwd.total_duration
      = (pairsInit.data ("A1", "B1")).stats_fwd.total_duration :=
  absent_duration_counts_as_zero
    (avg_coords [mkRow "A1" "B1" "a" "b" Cell.absent "classic_bike"])
    stationsInit pairsInit (mkRow "A1" "B1" "a" "b" Cell.absent "classic_bike")
    rfl (by decide) (by decide) (by decide) (by decide) (by decide)

/-- A two-trip batch whose pair report holds keys with origins `"B1"`
and `"n1"`. -/
def sortRows : List Row :=
  [mkRow "B1" "x1" "b" "x" (Cell.num 1) "classic_bike",
   mkRow "n1" "x1" "n" "x" (Cell.num 1) "classic_bike"]

/-- C7 (counterexample): the claimed ordering fails as stated. On
`sortRows` the report holds both `("B1", "x1")` and `("n1", "x1")`; the
municipality mapping is case-insensitive, so the claim pins `"n1"`
(Newton) ahead of `"B1"` (not Newton), but the script's comparator uses
the case-sensitive `startswith('N')` and orders `("B1", "x1")` first. -/
theorem pair_report_order_not_case_insensitive :
    ¬ List.Pairwise (fun p q => pairLeCI p q = true)
      (pairReportKeys (analyze_station_pairs_acc sortRows)) := by
  intro hCI
  have hCode := pairReportKeys_pairwise_code (analyze_station_pairs_acc sortRows)
  have hmemB : ("B1", "x1") ∈ pairReportKeys (analyze_station_pairs_acc sortRows) := by
    rw [pairReportKeys, List.mem_filter, List.mem_mergeSort]
    exact ⟨by decide, by decide⟩
  have hmemN : ("n1", "x1") ∈ pairReportKeys (analyze_station_pairs_acc sortRows) := by
    rw [pairReportKeys, List.mem_filter, List.mem_mergeSort]
    exact ⟨by decide, by decide⟩
  rcases pairwise_pair_of_mem hCode hCI hmemB hmemN (by decide) with ⟨h1, h2⟩ | ⟨h1, h2⟩
  · revert h2
    decide
  · revert h1
    decide

/-- C7 (amended): the pair report is ordered by the two-level key in which,
first at the origin position and then at the destination position, ids
whose first character is the literal (case-sensitive) Newton marker `'N'`
sort before all other ids, and ids within the same partition compare in
plain lexical order. -/
theorem pair_report_sorted_newton_first (s : PairsState) :
    List.Pairwise (fun p q => pairLeCS p q = true) (pairReportKeys s) :=
  (pairReportKeys_pairwise_code s).imp (fun h => pairKeyLe_imp_CS _ _ h)

/-- The presentation fields of a station entry: display name and captured
coordinates. -/
def StationStats.info (st : StationStats) : String × Option ℚ × Option ℚ :=
  (st.station_name, st.latitude, st.longitude)

/-- The presentation fields of a pair entry: the two display names and four
captured coordinates. -/
def PairEntry.info (e : PairEntry) :
    String × String × Option ℚ × Option ℚ × Option ℚ × Option ℚ :=
  (e.start_station_name, e.end_station_name, e.start_lat, e.start_lng, e.end_lat, e.end_lng)

theorem stationCapture_of_ne (st : StationStats) (n : String) (c : ℚ × ℚ)
    (h : st.station_name ≠ "") : stationCapture st n c = st := by
  unfold stationCapture
  rw [if_neg h]

theorem stationCapture_of_empty (st : StationStats) (n : String) (c : ℚ × ℚ)
    (h : st.station_name = "") :
    (stationCapture st n c).station_name = n ∧
    (stationCapture st n c).latitude = some c.1 ∧
    (stationCapture st n c).longitude = some c.2 := by
  unfold stationCapture
  rw [if_pos h]
  exact ⟨rfl, rfl, rfl⟩

theorem stationUpdateFwd_info (st : StationStats) (d : ℚ) (el : Bool) :
    (stationUpdateFwd st d el).info = st.info := by
  unfold stationUpdateFwd StationStats.info
  split <;> rfl

theorem stationUpdateRev_info (st : StationStats) (d : ℚ) (el : Bool) :
    (stationUpdateRev st d el).info = st.info := by
  unfold stationUpdateRev StationStats.info
  split <;> rfl

theorem pairCapture_of_ne (e : PairEntry) (sn en : String) (sc ec : ℚ × ℚ)
    (h : e.start_station_name ≠ "") : pairCapture e sn en sc ec = e := by
  unfold pairCapture
  rw [if_neg h]

theorem pairCapture_of_empty (e : PairEntry) (sn en : String) (sc ec : ℚ × ℚ)
    (h : e.start_station_name = "") :
    (pairCapture e sn en sc ec).start_station_name = sn := by
  unfold pairCapture
  rw [if_pos h]

/-- One `stationStep` never changes the presentation fields of a key whose
display name is already non-empty. -/
theorem stationStep_preserves_info (coords : String → Option (ℚ × ℚ)) (s : StationsState)
    (row : Row) (k : String) (h : (s.data k).station_name ≠ "") :
    ((stationStep coords s row).data k).info = (s.data k).info := by
  cases hv : isValidTrip coords row with
  | false => rw [stationStep_invalid coords s row hv]
  | true =>
      obtain ⟨hg, hcs, hce, hd⟩ := isValidTrip_components coords row hv
      obtain ⟨sc, hsc⟩ := Option.isSome_iff_exists.mp hcs
      obtain ⟨ec, hec⟩ := Option.isSome_iff_exists.mp hce
      obtain ⟨d, hdv⟩ := Option.isSome_iff_exists.mp hd
      have hne : row.start_station_id ≠ row.end_station_id := by
        push_neg at hg; exact hg.2.2
      rw [stationStep_valid coords s row sc ec d hg hsc hec hdv]
      simp only [Function.update_apply]
      by_cases hke : k = row.end_station_id
      · rw [if_pos hke, stationUpdateRev_info, stationCapture_of_ne _ _ _ (hke ▸ h)]
        rw [hke]
      · rw [if_neg hke]
        by_cases hks : k = row.start_station_id
        · rw [if_pos hks, stationUpdateFwd_info, stationCapture_of_ne _ _ _ (hks ▸ h)]
          rw [hks]
        · rw [if_neg hks]

/-- One `pairStep` never changes the presentation fields of a key whose
origin display name is already non-empty. -/
theorem pairStep_preserves_info (coords : String → Option (ℚ × ℚ)) (p : PairsState)
    (row : Row) (kp : String × String) (h : (p.data kp).start_station_name ≠ "") :
    ((pairStep coords p row).data kp).info = (p.data kp).info := by
  cases hv : isValidTrip coords row with
  | false => rw [pairStep_invalid coords p row hv]
  | true =>
      obtain ⟨hg, hcs, hce, hd⟩ := isValidTrip_components coords row hv
      obtain ⟨sc, hsc⟩ := Option.isSome_iff_exists.mp hcs
      obtain ⟨ec, hec⟩ := Option.isSome_iff_exists.mp hce
      obtain ⟨d, hdv⟩ := Option.isSome_iff_exists.mp hd
      have hne : row.start_station_id ≠ row.end_station_id := by
        push_neg at hg; exact hg.2.2
      rw [pairStep_valid coords p row sc ec d hg hsc hec hdv]
      simp only [Function.update_apply]
      by_cases hke : kp = (row.end_station_id, row.start_station_id)
      · rw [if_pos hke]
        have hr : (p.data (row.end_station_id, row.start_station_id)).start_station_name
            ≠ "" := by rw [← hke]; exact h
        rw [pairCapture_of_ne _ _ _ _ _ (by simpa using hr)]
        rw [hke]
        rfl
      · rw [if_neg hke]
        by_cases hks : kp = (row.start_station_id, row.end_station_id)
        · rw [if_pos hks]
          have hr : (p.data (row.start_station_id, row.end_station_id)).start_station_name
              ≠ "" := by rw [← hks]; exact h
          rw [pairCapture_of_ne _ _ _ _ _ hr]
          rw [hks]
          rfl
        · rw [if_neg hks]

/-- Whole-batch persistence of station presentation fields. -/
theorem stationsFold_preserves_info (coords : String → Option (ℚ × ℚ)) :
    ∀ (rows : List Row) (s : StationsState) (k : String),
    (s.data k).station_name ≠ "" →
    ((stationsFold coords s rows).data k).info = (s.data k).info := by
  intro rows
  induction rows with
  | nil => intro s k _; rfl
  | cons row rest ih =>
      intro s k h
      have hstep := stationStep_preserves_info coords s row k h
      have hname : ((stationStep coords s row).data k).station_name
          = (s.data k).station_name := congrArg Prod.fst hstep
      have := ih (stationStep coords s row) k (by rw [hname]; exact h)
      calc ((stationsFold coords s (row :: rest)).data k).info
          = ((stationsFold coords (stationStep coords s row) rest).data k).info := rfl
        _ = ((stationStep coords s row).data k).info := this
        _ = (s.data k).info := hstep

/-- Whole-batch persistence of pair presentation fields. -/
theorem pairsFold_preserves_info (coords : String → Option (ℚ × ℚ)) :
    ∀ (rows : List Row) (p : PairsState) (kp : String × String),
    (p.data kp).start_station_name ≠ "" →
    ((pairsFold coords p rows).data kp).info = (p.data kp).info := by
  intro rows
  induction rows with
  | nil => intro p kp _; rfl
  | cons row rest ih =>
      intro p kp h
      have hstep := pairStep_preserves_info coords p row kp h
      have hname : ((pairStep coords p row).data kp).start_station_name
          = (p.data kp).start_station_name := congrArg Prod.fst hstep
      have := ih (pairStep coords p row) kp (by rw [hname]; exact h)
      calc ((pairsFold coords p (row :: rest)).data kp).info
          = ((pairsFold coords (pairStep coords p row) rest).data kp).info := rfl
        _ = ((pairStep coords p row).data kp).info := this
        _ = (p.data kp).info := hstep


@[simp] theorem stationUpdateFwd_name (st : StationStats) (d : ℚ) (el : Bool) :
    (stationUpdateFwd st d el).station_name = st.station_name := by
  unfold stationUpdateFwd
  split <;> rfl

@[simp] theorem stationUpdateRev_name (st : StationStats) (d : ℚ) (el : Bool) :
    (stationUpdateRev st d el).station_name = st.station_name := by
  unfold stationUpdateRev
  split <;> rfl

/-- The display name a record contributes for station key `k`, when it
touches `k` as origin or destination. -/
def stationDisplayNameOf (row : Row) (k : String) : Option String :=
  if row.start_station_id = k then some (format_station_name k row.start_station_name)
  else if row.end_station_id = k then some (format_station_name k row.end_station_name)
  else none

/-- The display name the station accumulator ends up storing for `k`: that
of the first valid trip touching `k` whose formatted name is non-empty. -/
def capturedStationName (coords : String → Option (ℚ × ℚ)) (k : String) :
    List Row → String
  | [] => ""
  | row :: rest =>
      if isValidTrip coords row = true then
        match stationDisplayNameOf row k with
        | some n => if n = "" then capturedStationName coords k rest else n
        | none => capturedStationName coords k rest
      else capturedStationName coords k rest

/-- The origin-position display name a record contributes for pair key
`kp`, when it runs between the two stations of `kp` in either direction. -/
def pairDisplayStartNameOf (row : Row) (kp : String × String) : Option String :=
  if row.start_station_id = kp.1 ∧ row.end_station_id = kp.2 then
    some (format_station_name kp.1 row.start_station_name)
  else if row.start_station_id = kp.2 ∧ row.end_station_id = kp.1 then
    some (format_station_name kp.1 row.end_station_name)
  else none

/-- The origin display name the pair accumulator ends up storing for `kp`. -/
def capturedPairStartName (coords : String → Option (ℚ × ℚ)) (kp : String × String) :
    List Row → String
  | [] => ""
  | row :: rest =>
      if isValidTrip coords row = true then
        match pairDisplayStartNameOf row kp with
        | some n => if n = "" then capturedPairStartName coords kp rest else n
        | none => capturedPairStartName coords kp rest
      else capturedPairStartName coords kp rest

/-- The station fold from an empty name slot stores exactly the captured
name. -/
theorem stationsFold_name (coords : String → Option (ℚ × ℚ)) :
    ∀ (rows : List Row) (s : StationsState) (k : String),
    (s.data k).station_name = "" →
    ((stationsFold coords s rows).data k).station_name
      = capturedStationName coords k rows := by
  intro rows
  induction rows with
  | nil => intro s k h; exact h
  | cons row rest ih =>
      intro s k h
      have hfold : stationsFold coords s (row :: rest)
          = stationsFold coords (stationStep coords s row) rest := rfl
      cases hv : isValidTrip coords row with
      | false =>
          rw [hfold, stationStep_invalid coords s row hv]
          simp only [capturedStationName]
          rw [if_neg (by rw [hv]; exact Bool.false_ne_true)]
          exact ih s k h
      | true =>
          obtain ⟨hg, hcs, hce, hd⟩ := isValidTrip_components coords row hv
          obtain ⟨sc, hsc⟩ := Option.isSome_iff_exists.mp hcs
          obtain ⟨ec, hec⟩ := Option.isSome_iff_exists.mp hce
          obtain ⟨d, hdv⟩ := Option.isSome_iff_exists.mp hd
          have hne : row.start_station_id ≠ row.end_station_id := by
            push_neg at hg; exact hg.2.2
          rw [hfold]
          by_cases hks : k = row.start_station_id
          · have hd1 : ((stationStep coords s row).data k).station_name
                = format_station_name k row.start_station_name := by
              rw [stationStep_valid coords s row sc ec d hg hsc hec hdv]
              simp only [Function.update_apply]
              rw [if_neg (by rw [hks]; exact hne), if_pos hks, stationUpdateFwd_name]
              rw [show (s.data row.start_station_id) = s.data k from by rw [hks]] at *
              rw [(stationCapture_of_empty _ _ _ h).1, hks]
            have hdisp : stationDisplayNameOf row k
                = some (format_station_name k row.start_station_name) := by
              unfold stationDisplayNameOf
              rw [if_pos hks.symm]
            have hspec : capturedStationName coords k (row :: rest)
                = if format_station_name k row.start_station_name = ""
                  then capturedStationName coords k rest
                  else format_station_name k row.start_station_name := by
              simp only [capturedStationName]
              rw [if_pos hv, hdisp]
            rw [hspec]
            by_cases hn : format_station_name k row.start_station_name = ""
            · rw [if_pos hn]
              exact ih (stationStep coords s row) k (by rw [hd1]; exact hn)
            · rw [if_neg hn]
              have hpers := stationsFold_preserves_info coords rest
                (stationStep coords s row) k (by rw [hd1]; exact hn)
              have hn2 := congrArg Prod.fst hpers
              exact hn2.trans hd1
          · by_cases hke : k = row.end_station_id
            · have hd1 : ((stationStep coords s row).data k).station_name
                  = format_station_name k row.end_station_name := by
                rw [stationStep_valid coords s row sc ec d hg hsc hec hdv]
                simp only [Function.update_apply]
                rw [if_pos hke, stationUpdateRev_name]
                rw [show (s.data row.end_station_id) = s.data k from by rw [hke]] at *
                rw [(stationCapture_of_empty _ _ _ h).1, hke]
              have hdisp : stationDisplayNameOf row k
                  = some (format_station_name k row.end_station_name) := by
                unfold stationDisplayNameOf
                rw [if_neg (fun he => hks he.symm), if_pos hke.symm]
              have hspec : capturedStationName coords k (row :: rest)
                  = if format_station_name k row.end_station_name = ""
                    then capturedStationName coords k rest
                    else format_station_name k row.end_station_name := by
                simp only [capturedStationName]
                rw [if_pos hv, hdisp]
              rw [hspec]
              by_cases hn : format_station_name k row.end_station_name = ""
              · rw [if_pos hn]
                exact ih (stationStep coords s row) k (by rw [hd1]; exact hn)
              · rw [if_neg hn]
                have hpers := stationsFold_preserves_info coords rest
                  (stationStep coords s row) k (by rw [hd1]; exact hn)
                have hn2 := congrArg Prod.fst hpers
                exact hn2.trans hd1
            · have hd1 : (stationStep coords s row).data k = s.data k := by
                rw [stationStep_valid coords s row sc ec d hg hsc hec hdv]
                simp only [Function.update_apply]
                rw [if_neg hke, if_neg hks]
              have hdisp : stationDisplayNameOf row k = none := by
                unfold stationDisplayNameOf
                rw [if_neg (fun he => hks he.symm), if_neg (fun he => hke he.symm)]
              have hspec : capturedStationName coords k (row :: rest)
                  = capturedStationName coords k rest := by
                simp only [capturedStationName]
                rw [if_pos hv, hdisp]
              rw [hspec]
              exact ih (stationStep coords s row) k (by rw [hd1]; exact h)

/-- The pair fold from an empty origin-name slot stores exactly the
captured origin name. -/
theorem pairsFold_name (coords : String → Option (ℚ × ℚ)) :
    ∀ (rows : List Row) (p : PairsState) (kp : String × String),
    (p.data kp).start_station_name = "" →
    ((pairsFold coords p rows).data kp).start_station_name
      = capturedPairStartName coords kp rows := by
  intro rows
  induction rows with
  | nil => intro p kp h; exact h
  | cons row rest ih =>
      intro p kp h
      have hfold : pairsFold coords p (row :: rest)
          = pairsFold coords (pairStep coords p row) rest := rfl
      cases hv : isValidTrip coords row with
      | false =>
          rw [hfold, pairStep_invalid coords p row hv]
          simp only [capturedPairStartName]
          rw [if_neg (by rw [hv]; exact Bool.false_ne_true)]
          exact ih p kp h
      | true =>
          obtain ⟨hg, hcs, hce, hd⟩ := isValidTrip_components coords row hv
          obtain ⟨sc, hsc⟩ := Option.isSome_iff_exists.mp hcs
          obtain ⟨ec, hec⟩ := Option.isSome_iff_exists.mp hce
          obtain ⟨d, hdv⟩ := Option.isSome_iff_exists.mp hd
          have hne : row.start_station_id ≠ row.end_station_id := by
            push_neg at hg; exact hg.2.2
          have hkk : kp = (row.start_station_id, row.end_station_id) →
              kp ≠ (row.end_station_id, row.start_station_id) := by
            intro h1 h2
            rw [h1] at h2
            exact hne (congrArg Prod.fst h2)
          rw [hfold]
          by_cases hks : kp = (row.start_station_id, row.end_station_id)
          · have hd1 : ((pairStep coords p row).data kp).start_station_name
                = format_station_name row.start_station_id row.start_station_name := by
              rw [pairStep_valid coords p row sc ec d hg hsc hec hdv]
              simp only [Function.update_apply]
              rw [if_neg (hkk hks), if_pos hks]
              rw [show p.data (row.start_station_id, row.end_station_id) = p.data kp
                from by rw [hks]] at *
              exact pairCapture_of_empty _ _ _ _ _ h
            have hdisp : pairDisplayStartNameOf row kp
                = some (format_station_name row.start_station_id
                  row.start_station_name) := by
              unfold pairDisplayStartNameOf
              rw [if_pos ⟨by rw [hks], by rw [hks]⟩, show kp.1 = row.start_station_id
                from by rw [hks]]
            have hspec : capturedPairStartName coords kp (row :: rest)
                = if format_station_name row.start_station_id
                    row.start_station_name = ""
                  then capturedPairStartName coords kp rest
                  else format_station_name row.start_station_id
                    row.start_station_name := by
              simp only [capturedPairStartName]
              rw [if_pos hv, hdisp]
            rw [hspec]
            by_cases hn : format_station_name row.start_station_id
                row.start_station_name = ""
            · rw [if_pos hn]
              exact ih (pairStep coords p row) kp (by rw [hd1]; exact hn)
            · rw [if_neg hn]
              have hpers := pairsFold_preserves_info coords rest
                (pairStep coords p row) kp (by rw [hd1]; exact hn)
              have hn2 := congrArg Prod.fst hpers
              exact hn2.trans hd1
          · by_cases hke : kp = (row.end_station_id, row.start_station_id)
            · have hd1 : ((pairStep coords p row).data kp).start_station_name
                  = format_station_name row.end_station_id row.end_station_name := by
                rw [pairStep_valid coords p row sc ec d hg hsc hec hdv]
                simp only [Function.update_apply]
                rw [if_pos hke]
                have h2 : ((p.data (row.end_station_id, row.start_station_id)).start_station_name) = "" := by
                  rw [← hke]; exact h
                exact pairCapture_of_empty _ _ _ _ _ (by simpa using h2)
              have hdisp : pairDisplayStartNameOf row kp
                  = some (format_station_name row.end_station_id
                    row.end_station_name) := by
                unfold pairDisplayStartNameOf
                rw [if_neg ?hcontra, if_pos ⟨by rw [hke], by rw [hke]⟩,
                  show kp.1 = row.end_station_id from by rw [hke]]
                case hcontra =>
                  intro hc
                  apply hne
                  have h1 : kp.1 = row.end_station_id := by rw [hke]
                  exact hc.1.trans h1
              have hspec : capturedPairStartName coords kp (row :: rest)
                  = if format_station_name row.end_station_id
                      row.end_station_name = ""
                    then capturedPairStartName coords kp rest
                    else format_station_name row.end_station_id
                      row.end_station_name := by
                simp only [capturedPairStartName]
                rw [if_pos hv, hdisp]
              rw [hspec]
              by_cases hn : format_station_name row.end_station_id
                  row.end_station_name = ""
              · rw [if_pos hn]
                exact ih (pairStep coords p row) kp (by rw [hd1]; exact hn)
              · rw [if_neg hn]
                have hpers := pairsFold_preserves_info coords rest
                  (pairStep coords p row) kp (by rw [hd1]; exact hn)
                have hn2 := congrArg Prod.fst hpers
                exact hn2.trans hd1
            · have hd1 : (pairStep coords p row).data kp = p.data kp := by
                rw [pairStep_valid coords p row sc ec d hg hsc hec hdv]
                simp only [Function.update_apply]
                rw [if_neg hke, if_neg hks]
              have hdisp : pairDisplayStartNameOf row kp = none := by
                unfold pairDisplayStartNameOf
                rw [if_neg, if_neg]
                · intro hc
                  apply hke
                  rw [Prod.ext_iff]
                  exact ⟨hc.2.symm, hc.1.symm⟩
                · intro hc
                  apply hks
                  rw [Prod.ext_iff]
                  exact ⟨hc.1.symm, hc.2.symm⟩
              have hspec : capturedPairStartName coords kp (row :: rest)
                  = capturedPairStartName coords kp rest := by
                simp only [capturedPairStartName]
                rw [if_pos hv, hdisp]
              rw [hspec]
              exact ih (pairStep coords p row) kp (by rw [hd1]; exact h)


/-- Batch where the first valid trip touching `"A1"` carries an empty
origin name and a later trip carries `"Foo"`. -/
def nameRows : List Row :=
  [mkRow "A1" "B1" "" "b" (Cell.num 1) "classic_bike",
   mkRow "A1" "B1" "Foo" "b" (Cell.num 1) "classic_bike"]

/-- C8 (counterexample): the first-writer-wins claim fails as stated. On
`nameRows` the chronologically first valid trip touching `"A1"` formats to
the empty display name, so the claim demands the stored name `""`; the
code's emptiness-guarded capture lets the second trip write, and the
accumulator stores `"Boston: Foo"`. -/
theorem station_name_not_first_writer :
    ((analyze_stations_acc nameRows).data "A1").station_name = "Boston: Foo" ∧
    format_station_name "A1" "" = "" ∧
    ((analyze_stations_acc nameRows).data "A1").station_name
      ≠ format_station_name "A1" "" := by
  refine ⟨by decide, by decide, by decide⟩

def witnessStationState : StationsState :=
  ⟨fun _ => { StationStats.init with station_name := "X" }, []⟩

def witnessPairState : PairsState :=
  ⟨fun _ => { PairEntry.init with start_station_name := "X" }, []⟩

/-- C8 (amended): for every station key (and analogously every ordered
pair key) the display name stored by a batch is that of the first valid
trip touching the key whose formatted display name (for pairs: the
origin-position name) is non-empty — trips formatting to an empty name
leave the slot empty and a later trip may fill it — and once the stored
name is non-empty, later trips change neither the names nor the captured
coordinate fields. -/
theorem name_capture_first_nonempty (coords : String → Option (ℚ × ℚ))
    (rows rows2 : List Row) (k : String) (kp : String × String)
    (s : StationsState) (p : PairsState) :
    ((analyze_stations_acc rows).data k).station_name
      = capturedStationName (avg_coords rows) k rows ∧
    ((analyze_station_pairs_acc rows).data kp).start_station_name
      = capturedPairStartName (avg_coords rows) kp rows ∧
    ((s.data k).station_name ≠ "" →
      ((stationsFold coords s rows2).data k).info = (s.data k).info) ∧
    ((p.data kp).start_station_name ≠ "" →
      ((pairsFold coords p rows2).data kp).info = (p.data kp).info) :=
  ⟨stationsFold_name (avg_coords rows) rows stationsInit k rfl,
   pairsFold_name (avg_coords rows) rows pairsInit kp rfl,
   fun h => stationsFold_preserves_info coords rows2 s k h,
   fun h => pairsFold_preserves_info coords rows2 p kp h⟩

/-- Witness for the amended C8 at concrete states with a non-empty stored
name. -/
theorem name_capture_first_nonempty_witness :
    ((analyze_stations_acc nameRows).data "A1").station_name
      = capturedStationName (avg_coords nameRows) "A1" nameRows ∧
    ((stationsFold (avg_coords nameRows) witnessStationState nameRows).data "A1").info
      = (witnessStationState.data "A1").info ∧
    ((pairsFold (avg_coords nameRows) witnessPairState nameRows).data ("A1", "B1")).info
      = (witnessPairState.data ("A1", "B1")).info :=
  ⟨(name_capture_first_nonempty (avg_coords nameRows) nameRows nameRows "A1" ("A1", "B1")
      witnessStationState witnessPairState).1,
   (name_capture_first_nonempty (avg_coords nameRows) nameRows nameRows "A1" ("A1", "B1")
      witnessStationState witnessPairState).2.2.1 (by decide),
   (name_capture_first_nonempty (avg_coords nameRows) nameRows nameRows "A1" ("A1", "B1")
      witnessStationState witnessPairState).2.2.2 (by decide)⟩


end BlueBikes
